import Mathlib

/-!
# Copernicus: block acceptance and block undo

A shallow embedding of `logic/undo/undo.go` and `logic/lblock/lblock.go`.
Pointers to block-index nodes are modelled by the hash that keys the node in
the chain index; the global singletons (chain, persist, disk, clock) are
gathered in explicit state records that every operation takes and returns.
Collaborators whose code lives in other packages are parameters, bundled in
environment records.
-/

namespace Copernicus

/-! ## Shared data model -/

/-- A 256-bit hash (`util.Hash`), kept as a number. -/
abbrev UtilHash := Nat

/-- Reference to one output of a transaction (`outpoint.OutPoint`). -/
structure OutPoint where
  Hash : UtilHash
  Index : Nat
deriving DecidableEq

/-- `outpoint.NewOutPoint(txid, uint32(j))`: the index is converted to 32 bits. -/
def NewOutPoint (txid : UtilHash) (j : Nat) : OutPoint :=
  { Hash := txid, Index := j % 2 ^ 32 }

/-- A transaction output (`txout.TxOut`): amount and locking script. -/
structure TxOut where
  Value : Int
  Script : List Nat
deriving DecidableEq

/-- A transaction input (`txin.TxIn`). -/
structure TxIn where
  PreviousOutPoint : OutPoint
  Sequence : Nat
deriving DecidableEq

/-- A transaction (`tx.Tx`) with its cached hash. -/
structure Tx where
  Hash : UtilHash
  Ins : List TxIn
  Outs : List TxOut
deriving DecidableEq

/-- An unspent output (`utxo.Coin`). -/
structure Coin where
  TxOut : TxOut
  Height : Int
  IsCoinBase : Bool
deriving DecidableEq

/-- Undo record of one transaction (`undo.TxUndo`). -/
structure TxUndo where
  PrevOut : List Coin
deriving DecidableEq

/-- Undo data of one block (`undo.BlockUndo`). -/
structure BlockUndo where
  txundo : List TxUndo
deriving DecidableEq

/-- A block header (`block.BlockHeader`). -/
structure BlockHeader where
  Version : Int
  HashPrevBlock : UtilHash
  MerkleRoot : UtilHash
  Time : Nat
  Bits : Nat
  Nonce : Nat
deriving DecidableEq

/-- A block (`block.Block`): header, transactions and the one-shot checked flag. -/
structure Block where
  Header : BlockHeader
  Txs : List Tx
  Checked : Bool
deriving DecidableEq

/-- Tri-state outcome of a disconnection (`undo.DisconnectResult`). -/
inductive DisconnectResult where
  | DisconnectOk
  | DisconnectUnclean
  | DisconnectFailed
deriving DecidableEq

/-! ## The coins map -/

/-- Modelled from the spec: `utxo.CoinsMap` is not in the sources. The UTXO set is
a finite map from output location to coin, kept as an association list with at
most one entry per key maintained by the operations below. -/
abbrev CoinsMap := List (OutPoint × Coin)

/-- Modelled from the spec: `CoinsMap.FetchCoin` is not in the sources; it yields the
coin held at the location, or nil. -/
def CoinsMap.FetchCoin : CoinsMap → OutPoint → Option Coin
  | [], _ => none
  | (k, c) :: rest, out => if k = out then some c else CoinsMap.FetchCoin rest out

/-- Removal of every entry stored under one location. -/
def CoinsMap.erase : CoinsMap → OutPoint → CoinsMap
  | [], _ => []
  | (k, c) :: rest, out =>
    if k = out then CoinsMap.erase rest out else (k, c) :: CoinsMap.erase rest out

/-- Modelled from the spec: `CoinsMap.AddCoin` is not in the sources; the spec has it
insert the given coin unconditionally, replacing what was there. -/
def CoinsMap.AddCoin (cm : CoinsMap) (out : OutPoint) (coin : Coin) : CoinsMap :=
  (out, coin) :: CoinsMap.erase cm out

/-- Modelled from the spec: `CoinsMap.SpendGlobalCoin` is not in the sources; it
removes the coin at the location from the set and hands it back, nil when
there was none. -/
def CoinsMap.SpendGlobalCoin (cm : CoinsMap) (out : OutPoint) : Option Coin × CoinsMap :=
  (CoinsMap.FetchCoin cm out, CoinsMap.erase cm out)

/-! ## undo.go -/

/-- Collaborators of the undo engine that are not in the sources.
`IsSpendable` is `txout.TxOut.IsSpendable`. `nilCoinTxOut` is what
`(*Coin)(nil).GetTxOut()` does: `none` when the call dereferences the nil
receiver and the runtime aborts, `some t` when it returns `t`. -/
structure UndoEnv where
  IsSpendable : TxOut → Bool
  nilCoinTxOut : Option TxOut

/-- How a call ends: with a returned value, or aborted by the Go runtime
(nil dereference, index out of range). -/
inductive Outcome (α : Type) where
  | returned (a : α)
  | aborted
deriving DecidableEq

/-- Control flow leaving a loop of `ApplyBlockUndo`: the loop ran to its end
(`next`, with the coins map and the `clean` variable), a `return` statement was
executed (`ret`), or the runtime aborted (`abort`). -/
inductive Flow where
  | next (cm : CoinsMap) (clean : Bool)
  | ret (r : DisconnectResult) (cm : CoinsMap)
  | abort (cm : CoinsMap)
deriving DecidableEq

/-- `UndoCoinSpend` (undo.go 171-199): the result and the coins map after the call. -/
def UndoCoinSpend (coin : Coin) (cm : CoinsMap) (out : OutPoint) :
    DisconnectResult × CoinsMap :=
  let clean := if (CoinsMap.FetchCoin cm out).isSome then false else true
  let cm1 := CoinsMap.AddCoin cm out coin
  if clean then (DisconnectResult.DisconnectOk, cm1)
  else (DisconnectResult.DisconnectUnclean, cm1)

/-- The loop `for k := insLen-1; k > 0; k--` of `ApplyBlockUndo` (undo.go 150-158),
entered with the counter at the given value. -/
def inputLoop (ins : List TxIn) (prevOut : List Coin) : Nat → CoinsMap → Bool → Flow
  | 0, cm, clean => Flow.next cm clean
  | k + 1, cm, clean =>
    match ins[k + 1]?, prevOut[k + 1]? with
    | some txin, some undoCoin =>
      let res := UndoCoinSpend undoCoin cm txin.PreviousOutPoint
      if res.1 = DisconnectResult.DisconnectFailed then
        Flow.ret DisconnectResult.DisconnectFailed res.2
      else
        inputLoop ins prevOut k res.2
          (clean && decide (res.1 ≠ DisconnectResult.DisconnectUnclean))
    | _, _ => Flow.abort cm

/-- The loop `for j := 0; j < tx.GetOutsCount(); j++` of `ApplyBlockUndo`
(undo.go 124-159) for transaction `tx` at block position `i`, entered at output
index `j` with the outputs from `j` on still to be visited. -/
def outputLoop (env : UndoEnv) (tx : Tx) (i : Nat) (txUndos : List TxUndo) :
    List TxOut → Nat → CoinsMap → Bool → Flow
  | [], _, cm, clean => Flow.next cm clean
  | o :: rest, j, cm, clean =>
    if env.IsSpendable o then
      outputLoop env tx i txUndos rest (j + 1) cm clean
    else
      let out := NewOutPoint tx.Hash j
      let spent := CoinsMap.SpendGlobalCoin cm out
      let cm1 := spent.2
      -- coinOut := coin.GetTxOut()
      let coinOut : Option TxOut :=
        match spent.1 with
        | some coin => some coin.TxOut
        | none => env.nilCoinTxOut
      match coinOut with
      | none => Flow.abort cm1
      | some coinOut =>
        let clean1 :=
          if spent.1.isNone || !decide (o = coinOut) then false else clean
        if i < 1 then
          Flow.next cm1 clean1
        else
          match txUndos[i - 1]? with
          | none => Flow.abort cm1
          | some txundo =>
            let insLen := tx.Ins.length
            if txundo.PrevOut.length ≠ insLen then
              Flow.ret DisconnectResult.DisconnectFailed cm1
            else
              match inputLoop tx.Ins txundo.PrevOut (insLen - 1) cm1 clean1 with
              | Flow.next cm2 clean2 =>
                outputLoop env tx i txUndos rest (j + 1) cm2 clean2
              | other => other

/-- The loop `for i := len(blk.Txs)-1; i > 0; i--` of `ApplyBlockUndo`
(undo.go 118-160), entered with the counter at the given value. -/
def txLoop (env : UndoEnv) (txs : List Tx) (txUndos : List TxUndo) :
    Nat → CoinsMap → Bool → Flow
  | 0, cm, clean => Flow.next cm clean
  | i + 1, cm, clean =>
    match txs[i + 1]? with
    | none => Flow.abort cm
    | some tx =>
      match outputLoop env tx (i + 1) txUndos tx.Outs 0 cm clean with
      | Flow.next cm1 clean1 => txLoop env txs txUndos i cm1 clean1
      | other => other

/-- `ApplyBlockUndo` (undo.go 109-168): how the call ends and the coins map it
leaves behind. -/
def ApplyBlockUndo (env : UndoEnv) (blockUndo : BlockUndo) (blk : Block) (cm : CoinsMap) :
    Outcome DisconnectResult × CoinsMap :=
  let txUndos := blockUndo.txundo
  if txUndos.length + 1 ≠ blk.Txs.length then
    (Outcome.returned DisconnectResult.DisconnectFailed, cm)
  else
    match txLoop env blk.Txs txUndos (blk.Txs.length - 1) cm true with
    | Flow.next cm1 clean =>
      (Outcome.returned
        (if clean then DisconnectResult.DisconnectOk else DisconnectResult.DisconnectUnclean),
        cm1)
    | Flow.ret r cm1 => (Outcome.returned r, cm1)
    | Flow.abort cm1 => (Outcome.aborted, cm1)

/-- Two-complement wrap of a mathematical integer to a signed machine integer
of `w` bits. -/
def wrapInt (w : Nat) (x : Int) : Int :=
  (x + 2 ^ (w - 1)) % 2 ^ w - 2 ^ (w - 1)

/-- What `IsInitialBlockDownload` reads of the active tip: its cumulative work
(`ChainWork`) and its header time (`GetBlockTime`, 32 bits unsigned). -/
structure TipInfo where
  ChainWork : Int
  BlockTime : Nat
deriving DecidableEq

/-- The process-wide values `IsInitialBlockDownload` reads and writes: the latch,
the import and reindex flags, the active tip (nil for an empty chain), the
network minimum chain work, the clock (`util.GetMockTime`) and `GMaxTipAge`. -/
structure IBDState where
  gLatchToFalse : Bool
  GImporting : Bool
  GfReindex : Bool
  tip : Option TipInfo
  MinimumChainWork : Int
  mockTime : Int
  GMaxTipAge : Int
deriving DecidableEq

/-- `IsInitialBlockDownload` (undo.go 48-75): the returned flag and the state after
the call. -/
def IsInitialBlockDownload (s : IBDState) : Bool × IBDState :=
  -- gLatchToFalse.Store(false)
  let s0 := { s with gLatchToFalse := false }
  if s0.gLatchToFalse then (false, s0)
  else if s0.gLatchToFalse then (false, s0)
  else if s0.GImporting || s0.GfReindex then (true, s0)
  else
    match s0.tip with
    | none => (true, s0)
    | some tip =>
      if tip.ChainWork < s0.MinimumChainWork then (true, s0)
      else if (tip.BlockTime : Int) < wrapInt 64 (s0.mockTime - s0.GMaxTipAge) then (true, s0)
      else (false, { s0 with gLatchToFalse := true })

/-! ## lblock.go: data -/

/-- Reject codes of `errcode` used by the block checks. -/
inductive RejectCode where
  | RejectInvalid
deriving DecidableEq

/-- Chain error codes of `errcode` used by the header validator. -/
inductive ChainErrCode where
  | ErrorBlockHeaderNoValid
  | ErrorBlockHeaderNoParent
deriving DecidableEq

/-- Error values. `ProjectError`, `NewError` and `New` mirror the three ways the
source builds an error; `DuplicateOrConflict` is the insertion conflict of the
chain index named by the spec; `foreign` stands for any other error made by a
collaborator. -/
inductive Err where
  | ProjectError (Code : Nat)
  | NewError (code : RejectCode) (reason : String)
  | New (code : ChainErrCode)
  | DuplicateOrConflict
  | foreign (tag : Nat)
deriving DecidableEq

/-- Status flags passed to `AddStatus`. -/
inductive StatusFlag where
  | BlockHaveData
  | BlockFailed
deriving DecidableEq

/-- Modelled from the spec: the status word of `blockindex.BlockIndex` is not in
the sources. The spec has a bit-set with `HaveData` and `Failed` and a validity
level ordered Tree < Transactions < Chain < Scripts. -/
structure BlockStatus where
  HaveData : Bool
  Failed : Bool
  Validity : Nat
deriving DecidableEq

/-- Validity level `Tree`. -/
def BlockValidTree : Nat := 2
/-- Validity level `Transactions`. -/
def BlockValidTransactions : Nat := 3
/-- Validity level `Chain`. -/
def BlockValidChain : Nat := 4
/-- Validity level `Scripts`. -/
def BlockValidScripts : Nat := 5

/-- A node of the chain index (`blockindex.BlockIndex`). The parent pointer `Prev`
is the hash that keys the parent in the index map. -/
structure BlockIndex where
  Header : BlockHeader
  Prev : Option UtilHash
  Height : Int
  ChainWork : Int
  Status : BlockStatus
  TxCount : Int
  ChainTxCount : Int
  File : Int
  DataPos : Nat
  UndoPos : Nat
  TimeMax : Nat
deriving DecidableEq

/-- Modelled from the spec: `blockindex.NewBlockIndex` is not in the sources; a
fresh node carries the header, no parent link, no status and zeroed counters. -/
def NewBlockIndex (bh : BlockHeader) : BlockIndex :=
  { Header := bh, Prev := none, Height := 0, ChainWork := 0,
    Status := { HaveData := false, Failed := false, Validity := 0 },
    TxCount := 0, ChainTxCount := 0, File := 0, DataPos := 0, UndoPos := 0, TimeMax := 0 }

/-- Modelled from the spec: `BlockIndex.AddStatus` is not in the sources; it sets the
given flag. -/
def BlockIndex.AddStatus (bi : BlockIndex) : StatusFlag → BlockIndex
  | StatusFlag.BlockHaveData => { bi with Status := { bi.Status with HaveData := true } }
  | StatusFlag.BlockFailed => { bi with Status := { bi.Status with Failed := true } }

/-- Modelled from the spec: `BlockIndex.RaiseValidity` is not in the sources; it
raises the validity level to at least the given one and never lowers it. -/
def BlockIndex.RaiseValidity (bi : BlockIndex) (upTo : Nat) : BlockIndex :=
  { bi with Status := { bi.Status with Validity := max bi.Status.Validity upTo } }

/-- Modelled from the spec: `BlockIndex.HasData` is not in the sources; body data is
recorded for the node. -/
def BlockIndex.HasData (bi : BlockIndex) : Bool := bi.Status.HaveData

/-- Modelled from the spec: `BlockIndex.IsInvalid` is not in the sources; the
status is `Failed`. -/
def BlockIndex.IsInvalid (bi : BlockIndex) : Bool := bi.Status.Failed

/-- Modelled from the spec: `BlockIndex.IsValid` is not in the sources; the node is
at least valid up to the given level. -/
def BlockIndex.IsValid (bi : BlockIndex) (upTo : Nat) : Bool := decide (upTo ≤ bi.Status.Validity)

/-- Locator of a block on disk (`block.DiskBlockPos`). -/
structure DiskBlockPos where
  File : Int
  Pos : Nat
deriving DecidableEq

/-- `block.NewDiskBlockPos`. -/
def NewDiskBlockPos (file : Int) (pos : Nat) : DiskBlockPos := { File := file, Pos := pos }

/-- Modelled from the spec: `chain.Chain` is not in the sources. The spec has it
own the index-node map, the active-tip pointer, the current height, the branch
set and the orphan set; nodes are referred to by hash. -/
structure Chain where
  indexMap : List (UtilHash × BlockIndex)
  tip : Option UtilHash
  height : Int
  branch : List UtilHash
  orphan : List UtilHash
deriving DecidableEq

/-- Calls recorded in the history of a run: the entries into the two block
checks and the calls made to the disk collaborator, with their arguments. -/
inductive Event where
  | CheckBlock (b : Block)
  | ContextualCheckBlock (b : Block)
  | FindBlockPos (pos : DiskBlockPos) (size : Nat) (height : Int) (time : Nat) (known : Bool)
  | WriteBlockToDisk (b : Block) (pos : DiskBlockPos)
deriving DecidableEq

/-- The singletons the block acceptor works on: the chain, the dirty-node registry
of `persist`, the history of recorded calls, and the adjusted network time
(`util.GetAdjustedTime`) as the call that runs on this world reads it. -/
structure World where
  chain : Chain
  dirty : List UtilHash
  trace : List Event
  adjustedTime : Int
deriving DecidableEq

/-- Deployment states of `versionbits`. -/
inductive ThresholdState where
  | ThresholdDefined
  | ThresholdStarted
  | ThresholdLockedIn
  | ThresholdActive
  | ThresholdFailed
deriving DecidableEq

/-- Collaborators and constants of the block acceptor whose code is not in the
sources. The disk collaborator answers as a function of the history of
recorded calls; `VersionBitsState` is the state of the CSV deployment;
`nilIndexIsValid` is what `(*BlockIndex)(nil).IsValid(upTo)` does: `none` when
the call reads through the nil receiver and the runtime aborts, `some v` when
it returns `v`. -/
structure Env where
  GetHash : BlockHeader → UtilHash
  GenesisHash : UtilHash
  CheckBlockHeader : BlockHeader → Option Err
  ContextualCheckBlockHeader : Chain → BlockHeader → BlockIndex → Int → Option Err
  CheckIndexAgainstCheckpoint : Chain → BlockIndex → Option Err
  BlockMerkleRoot : List Tx → UtilHash × Bool
  Excessiveblocksize : Nat
  minTransactionSize : Nat
  EncodeSize : Block → Nat
  SerializeSize : Block → Nat
  GetMaxBlockSigOpsCount : Nat → Nat × Option Err
  CheckBlockTransactions : List Tx → Nat → Option Err
  ContextureCheckBlockTransactions : List Tx → Int → Int → Option Err
  IsMonolithEnabled : Int → Bool
  GetMedianTimePast : Chain → BlockIndex → Int
  VersionBitsState : Chain → Option BlockIndex → ThresholdState
  LocktimeMedianTimePast : Nat
  OneMegaByte : Nat
  MinBlocksToKeep : Int
  FindBlockPos : List Event → DiskBlockPos → Nat → Int → Nat → Bool → Bool × DiskBlockPos
  WriteBlockToDisk : List Event → Block → DiskBlockPos → Bool
  nilIndexIsValid : Option Bool

/-! ## lblock.go: chain and persist operations -/

/-- Modelled from the spec: `Chain.FindBlockIndex` is not in the sources; the node
stored under the hash, or nil. -/
def FindBlockIndex : List (UtilHash × BlockIndex) → UtilHash → Option BlockIndex
  | [], _ => none
  | (k, n) :: rest, h => if k = h then some n else FindBlockIndex rest h

/-- In-place mutation of the node stored under a hash. -/
def modifyIndex (f : BlockIndex → BlockIndex) :
    List (UtilHash × BlockIndex) → UtilHash → List (UtilHash × BlockIndex)
  | [], _ => []
  | (k, n) :: rest, h =>
    if k = h then (k, f n) :: rest else (k, n) :: modifyIndex f rest h

/-- In-place mutation of a node of the chain. -/
def Chain.modify (c : Chain) (h : UtilHash) (f : BlockIndex → BlockIndex) : Chain :=
  { c with indexMap := modifyIndex f c.indexMap h }

/-- Modelled from the spec: `Chain.Tip` is not in the sources; the node the
active-tip pointer refers to, nil for an empty chain. -/
def Chain.Tip (c : Chain) : Option BlockIndex :=
  match c.tip with
  | none => none
  | some h => FindBlockIndex c.indexMap h

/-- Modelled from the spec: `Chain.Height` is not in the sources; the current
height owned by the chain. -/
def Chain.Height (c : Chain) : Int := c.height

/-- Modelled from the spec: `Chain.AddToIndexMap` is not in the sources; insertion
fails with `DuplicateOrConflict` when a node for the hash already exists. -/
def AddToIndexMap (env : Env) (c : Chain) (bIndex : BlockIndex) : Option Err × Chain :=
  let h := env.GetHash bIndex.Header
  match FindBlockIndex c.indexMap h with
  | some _ => (some Err.DuplicateOrConflict, c)
  | none => (none, { c with indexMap := (h, bIndex) :: c.indexMap })

/-- Modelled from the spec: `BlockIndex.IsGenesis` is not in the sources; the node
is the genesis node of the configured network parameters. -/
def IsGenesis (env : Env) (bIndex : BlockIndex) : Bool :=
  decide (env.GetHash bIndex.Header = env.GenesisHash)

/-- Modelled from the spec: `Chain.ParentInBranch` is not in the sources; the parent
of the node is already part of a branch. -/
def ParentInBranch (c : Chain) (bIndex : BlockIndex) : Bool :=
  match bIndex.Prev with
  | none => false
  | some p => decide (p ∈ c.branch)

/-- Modelled from the spec: `Chain.AddToBranch` is not in the sources; the node is
moved into the branch set. -/
def AddToBranch (c : Chain) (h : UtilHash) : Chain :=
  { c with branch := if h ∈ c.branch then c.branch else h :: c.branch,
           orphan := c.orphan.filter (fun k => decide (k ≠ h)) }

/-- Modelled from the spec: `Chain.AddToOrphan` is not in the sources; the node is
moved into the orphan set. -/
def AddToOrphan (c : Chain) (h : UtilHash) : Chain :=
  { c with orphan := if h ∈ c.orphan then c.orphan else h :: c.orphan,
           branch := c.branch.filter (fun k => decide (k ≠ h)) }

/-- Modelled from the spec: `persist.AddDirtyBlockIndex` is not in the sources; the
node is registered as dirty for persistence. -/
def AddDirtyBlockIndex (w : World) (h : UtilHash) : World :=
  { w with dirty := if h ∈ w.dirty then w.dirty else h :: w.dirty }

/-- Appends one recorded call to the history. -/
def World.record (w : World) (e : Event) : World :=
  { w with trace := w.trace ++ [e] }

/-! ## lblock.go: functions -/

/-- `WriteBlockToDisk` (lblock.go 31-57): the returned position and error, and the
world after the call. -/
def WriteBlockToDisk (env : Env) (bi : BlockIndex) (bl : Block) (inDbp : Option DiskBlockPos)
    (w : World) : (Option DiskBlockPos × Option Err) × World :=
  let height := bi.Height
  let pos : DiskBlockPos :=
    match inDbp with
    | none => NewDiskBlockPos 0 0
    | some p => p
  let size := (env.SerializeSize bl % 2 ^ 32 + 4) % 2 ^ 32
  let time := bl.Header.Time % 2 ^ 64
  let found := env.FindBlockPos w.trace pos size height time inDbp.isSome
  let w1 := w.record (Event.FindBlockPos pos size height time inDbp.isSome)
  if !found.1 then
    ((none, some (Err.ProjectError 2000)), w1)
  else if inDbp.isNone then
    let flag := env.WriteBlockToDisk w1.trace bl found.2
    let w2 := w1.record (Event.WriteBlockToDisk bl found.2)
    if !flag then ((none, some (Err.ProjectError 2001)), w2)
    else ((some found.2, none), w2)
  else
    ((some found.2, none), w1)

/-- `getLockTime` (lblock.go 59-77). -/
def getLockTime (env : Env) (c : Chain) (block : Block) (indexPrev : Option BlockIndex) : Int :=
  let lockTimeFlags : Nat :=
    if env.VersionBitsState c indexPrev = ThresholdState.ThresholdActive then
      0 ||| env.LocktimeMedianTimePast
    else 0
  let medianTimePast : Int :=
    match indexPrev with
    | some p => env.GetMedianTimePast c p
    | none => 0
  let lockTimeCutoff : Int := (block.Header.Time : Int)
  if lockTimeFlags &&& env.LocktimeMedianTimePast ≠ 0 then medianTimePast else lockTimeCutoff

/-- `CheckBlock` (lblock.go 79-144): the error (nil on success) and the block with
its checked flag as the call leaves it. -/
def CheckBlock (env : Env) (pblock : Block) (checkHeader checkMerlke : Bool) :
    Option Err × Block :=
  if pblock.Checked then (none, pblock)
  else
    let bh := pblock.Header
    match (if checkHeader then env.CheckBlockHeader bh else none) with
    | some err => (some err, pblock)
    | none =>
      let merkle : Option (UtilHash × Bool) :=
        if checkMerlke then some (env.BlockMerkleRoot pblock.Txs) else none
      let mutated : Bool :=
        match merkle with
        | some m => m.2
        | none => false
      let rootDiffers : Bool :=
        match merkle with
        | some m => decide (bh.MerkleRoot ≠ m.1)
        | none => false
      if rootDiffers then
        (some (Err.NewError RejectCode.RejectInvalid "bad-txnmrklroot"), pblock)
      else if mutated then
        (some (Err.NewError RejectCode.RejectInvalid "bad-txns-duplicate"), pblock)
      else if pblock.Txs.length = 0 then
        (some (Err.NewError RejectCode.RejectInvalid "bad-cb-missing"), pblock)
      else
        let nMaxBlockSize := env.Excessiveblocksize
        if (pblock.Txs.length * env.minTransactionSize) % 2 ^ 64 > nMaxBlockSize then
          (some (Err.NewError RejectCode.RejectInvalid "bad-blk-length"), pblock)
        else
          let currentBlockSize := env.EncodeSize pblock
          if currentBlockSize % 2 ^ 64 > nMaxBlockSize then
            (some (Err.NewError RejectCode.RejectInvalid "bad-blk-length"), pblock)
          else
            let sig := env.GetMaxBlockSigOpsCount (currentBlockSize % 2 ^ 64)
            match sig.2 with
            | some errSig => (some errSig, pblock)
            | none =>
              match env.CheckBlockTransactions pblock.Txs sig.1 with
              | some err => (some err, pblock)
              | none => (none, { pblock with Checked := true })

/-- `ContextualCheckBlock` (lblock.go 146-169). -/
def ContextualCheckBlock (env : Env) (c : Chain) (b : Block) (indexPrev : Option BlockIndex) :
    Option Err :=
  let bMonolithEnable : Bool :=
    match indexPrev with
    | some p => env.IsMonolithEnabled (env.GetMedianTimePast c p)
    | none => false
  if !bMonolithEnable && decide (env.EncodeSize b > 8 * env.OneMegaByte) then
    some (Err.NewError RejectCode.RejectInvalid "bad-blk-length")
  else
    let height : Int :=
      match indexPrev with
      | some p => wrapInt 32 (p.Height + 1)
      | none => 0
    let lockTimeCutoff := getLockTime env c b indexPrev
    env.ContextureCheckBlockTransactions b.Txs height lockTimeCutoff

/-- `ReceivedBlockTransactions` (lblock.go 173-203) for the node stored under
`key`: how the call ends and the world after it. -/
def ReceivedBlockTransactions (env : Env) (pblock : Block) (key : UtilHash)
    (pos : DiskBlockPos) (w : World) : Outcome Unit × World :=
  match FindBlockIndex w.chain.indexMap key with
  | none => (Outcome.aborted, w)
  | some _ =>
    let c1 := w.chain.modify key (fun n =>
      (({ n with TxCount := wrapInt 32 (pblock.Txs.length : Int), ChainTxCount := 0,
                 File := pos.File, DataPos := pos.Pos, UndoPos := 0 }
        : BlockIndex).AddStatus StatusFlag.BlockHaveData).RaiseValidity BlockValidTransactions)
    let w1 := AddDirtyBlockIndex { w with chain := c1 } key
    match FindBlockIndex w1.chain.indexMap key with
    | none => (Outcome.aborted, w1)
    | some pindexNew =>
      if IsGenesis env pindexNew || ParentInBranch w1.chain pindexNew then
        (Outcome.returned (), { w1 with chain := AddToBranch w1.chain key })
      else
        let prevValid : Option Bool :=
          match pindexNew.Prev.bind (FindBlockIndex w1.chain.indexMap) with
          | some prev => some (prev.IsValid BlockValidTree)
          | none => env.nilIndexIsValid
        match prevValid with
        | none => (Outcome.aborted, w1)
        | some true => (Outcome.returned (), { w1 with chain := AddToOrphan w1.chain key })
        | some false => (Outcome.returned (), w1)

/-- The parent linking of `AcceptBlockHeader` (lblock.go 296-315) for a header
that has no node yet: the fresh node with its parent link set, or the error
of the first failing parent check. -/
def linkParent (env : Env) (bh : BlockHeader) (w : World) : BlockIndex ⊕ Err :=
  let bIndex := NewBlockIndex bh
  if !IsGenesis env bIndex then
    match FindBlockIndex w.chain.indexMap bh.HashPrevBlock with
    | none => Sum.inr (Err.New ChainErrCode.ErrorBlockHeaderNoParent)
    | some prev =>
      if prev.IsInvalid then Sum.inr (Err.ProjectError 3100)
      else if (env.CheckIndexAgainstCheckpoint w.chain prev).isSome then
        Sum.inr (Err.ProjectError 3100)
      else
        match env.ContextualCheckBlockHeader w.chain bh prev w.adjustedTime with
        | some err => Sum.inr err
        | none => Sum.inl { bIndex with Prev := some bh.HashPrevBlock }
  else Sum.inl bIndex

/-- `AcceptBlockHeader` (lblock.go 279-328): the returned node and error, and the
world after the call. -/
def AcceptBlockHeader (env : Env) (bh : BlockHeader) (w : World) :
    (Option BlockIndex × Option Err) × World :=
  match FindBlockIndex w.chain.indexMap (env.GetHash bh) with
  | some bIndex =>
    if bIndex.IsInvalid then
      ((some bIndex, some (Err.New ChainErrCode.ErrorBlockHeaderNoValid)), w)
    else ((some bIndex, none), w)
  | none =>
    match env.CheckBlockHeader bh with
    | some err => ((none, some err), w)
    | none =>
      match linkParent env bh w with
      | Sum.inr err => ((none, some err), w)
      | Sum.inl bIndex =>
        let added := AddToIndexMap env w.chain bIndex
        match added.1 with
        | some err => ((none, some err), { w with chain := added.2 })
        | none => ((some bIndex, none), { w with chain := added.2 })

/-- The statement `bIndex.AddStatus(blockindex.BlockFailed)` on the node stored
under the hash. -/
def markFailed (c : Chain) (key : UtilHash) : Chain :=
  c.modify key (fun n => n.AddStatus StatusFlag.BlockFailed)

/-- What `AcceptBlock` hands back: the three named results, the value left in
`*fNewBlock`, the block with its checked flag as the call leaves it, and
whether the runtime aborted the call. -/
structure AcceptResult where
  bIndex : Option BlockIndex
  outDbp : Option DiskBlockPos
  err : Option Err
  fNewBlock : Bool
  pblock : Block
  aborted : Bool
deriving DecidableEq

/-- The part of `AcceptBlock` from `*fNewBlock = true` on (lblock.go 254-277): the
two block checks, the disk write and the status promotion, for the node
`bIndex` stored under `key`. -/
def acceptChecked (env : Env) (pblock : Block) (key : UtilHash) (bIndex : BlockIndex)
    (inDbp : Option DiskBlockPos) (w1 : World) : AcceptResult × World :=
  -- *fNewBlock = true
  let w2 := w1.record (Event.CheckBlock pblock)
  let chk := CheckBlock env pblock true true
  match chk.1 with
  | some err =>
    let w3 := AddDirtyBlockIndex { w2 with chain := markFailed w2.chain key } key
    ({ bIndex := FindBlockIndex w3.chain.indexMap key, outDbp := none,
       err := some err, fNewBlock := true, pblock := chk.2, aborted := false }, w3)
  | none =>
    let w3 := w2.record (Event.ContextualCheckBlock chk.2)
    match ContextualCheckBlock env w3.chain chk.2
        (bIndex.Prev.bind (FindBlockIndex w3.chain.indexMap)) with
    | some err =>
      let w4 := AddDirtyBlockIndex { w3 with chain := markFailed w3.chain key } key
      ({ bIndex := FindBlockIndex w4.chain.indexMap key, outDbp := none,
         err := some err, fNewBlock := true, pblock := chk.2, aborted := false }, w4)
    | none =>
      let wr := WriteBlockToDisk env bIndex chk.2 inDbp w3
      match wr.1.2, wr.1.1 with
      | some err, _ =>
        ({ bIndex := some bIndex, outDbp := wr.1.1, err := some err, fNewBlock := true,
           pblock := chk.2, aborted := false }, wr.2)
      | none, none =>
        ({ bIndex := some bIndex, outDbp := none, err := none, fNewBlock := true,
           pblock := chk.2, aborted := true }, wr.2)
      | none, some outDbp =>
        let rbt := ReceivedBlockTransactions env chk.2 key outDbp wr.2
        ({ bIndex := FindBlockIndex rbt.2.chain.indexMap key, outDbp := some outDbp,
           err := none, fNewBlock := true, pblock := chk.2,
           aborted := decide (rbt.1 = Outcome.aborted) }, rbt.2)

/-- `AcceptBlock` (lblock.go 212-277). The node `bIndex` points to is the one
stored under the hash of the block header; the returned node is read when the
call ends. -/
def AcceptBlock (env : Env) (pblock : Block) (fRequested : Bool) (inDbp : Option DiskBlockPos)
    (w : World) : AcceptResult × World :=
  let key := env.GetHash pblock.Header
  -- *fNewBlock = false
  let hdr := AcceptBlockHeader env pblock.Header w
  let w1 := hdr.2
  match hdr.1.2 with
  | some err =>
    ({ bIndex := hdr.1.1, outDbp := none, err := some err, fNewBlock := false,
       pblock := pblock, aborted := false }, w1)
  | none =>
    match hdr.1.1 with
    | none =>
      ({ bIndex := none, outDbp := none, err := none, fNewBlock := false,
         pblock := pblock, aborted := true }, w1)
    | some bIndex =>
      if bIndex.HasData then
        ({ bIndex := some bIndex, outDbp := none, err := none, fNewBlock := false,
           pblock := pblock, aborted := false }, w1)
      else
        let fHasMoreWork : Bool :=
          match w1.chain.Tip with
          | none => true
          | some tip => decide (bIndex.ChainWork > tip.ChainWork)
        let fTooFarAhead : Bool :=
          decide (bIndex.Height > wrapInt 32 (w1.chain.Height + env.MinBlocksToKeep))
        if !fRequested && !fHasMoreWork then
          ({ bIndex := some bIndex, outDbp := none, err := some (Err.ProjectError 3008),
             fNewBlock := false, pblock := pblock, aborted := false }, w1)
        else if !fRequested && fTooFarAhead then
          ({ bIndex := some bIndex, outDbp := none, err := some (Err.ProjectError 3007),
             fNewBlock := false, pblock := pblock, aborted := false }, w1)
        else
          acceptChecked env pblock key bIndex inDbp w1

/-- The field updates at the head of `ReceivedBlockTransactions` (lblock.go
175-181), as a function of the node: transaction count, chain transaction
count, file position, the body-data flag and the validity level. -/
def promote (pblock : Block) (pos : DiskBlockPos) (n : BlockIndex) : BlockIndex :=
  (({ n with TxCount := wrapInt 32 (pblock.Txs.length : Int), ChainTxCount := 0,
             File := pos.File, DataPos := pos.Pos, UndoPos := 0 }
    : BlockIndex).AddStatus StatusFlag.BlockHaveData).RaiseValidity BlockValidTransactions

/-- The world `ReceivedBlockTransactions` has built when it comes to attach the
node stored under `key` (lblock.go 175-184): the node promoted in place and
registered as dirty. -/
def promotedWorld (pblock : Block) (key : UtilHash) (pos : DiskBlockPos) (w : World) : World :=
  AddDirtyBlockIndex { w with chain := w.chain.modify key (promote pblock pos) } key

/-! ## undo.go: reading undo data -/

/-- Collaborators of `UndoReadFromDisk` that are not in the sources. An open file
is the list of bytes still to be read. `OpenUndoFile` yields nil when the file
cannot be opened. The two deserializers return the value read and an error
(nil on success), or abort with a runtime fault; `UnserializeBlockUndo` also
returns the bytes left after the record. -/
structure UndoDiskEnv where
  OpenUndoFile : DiskBlockPos → Bool → Option (List Nat)
  UnserializeBlockUndo : List Nat → Outcome ((BlockUndo × Option Err) × List Nat)
  UnserializeHash : List Nat → Outcome (UtilHash × Option Err)

/-- `UndoReadFromDisk` (undo.go 79-106): the undo data handed back (nil when
nothing was read) and the ok flag. A runtime fault in a deserializer is
recovered by the deferred function, after which the call returns the zero
values of its unnamed results. -/
def UndoReadFromDisk (env : UndoDiskEnv) (pos : DiskBlockPos) (hashblock : UtilHash) :
    Option BlockUndo × Bool :=
  match env.OpenUndoFile pos true with
  | none => (none, false)
  | some file =>
    match env.UnserializeBlockUndo file with
    | Outcome.aborted => (none, false)
    | Outcome.returned ((bu, some _), _) => (some bu, false)
    | Outcome.returned ((bu, none), rest) =>
      match env.UnserializeHash rest with
      | Outcome.aborted => (none, false)
      | Outcome.returned (_, some _) => (some bu, false)
      | Outcome.returned (hashCheckSum, none) => (some bu, decide (hashCheckSum = hashblock))

/-! ## Sample data -/

/-- A sample spendability rule: a script is unspendable when it opens with the
return opcode (106). -/
def sampleUndoEnv : UndoEnv :=
  { IsSpendable := fun o => decide (o.Script.head? ≠ some 106), nilCoinTxOut := none }

/-- A sample coinbase transaction: one input with the null outpoint, one output. -/
def sampleCoinbase : Tx :=
  { Hash := 1, Ins := [{ PreviousOutPoint := { Hash := 0, Index := 4294967295 }, Sequence := 0 }],
    Outs := [{ Value := 50, Script := [1] }] }

/-- A sample payment: it spends output 0 of transaction 3 and has one spendable
output. -/
def samplePayment : Tx :=
  { Hash := 7, Ins := [{ PreviousOutPoint := { Hash := 3, Index := 0 }, Sequence := 0 }],
    Outs := [{ Value := 40, Script := [1] }] }

/-- The coin that `samplePayment` spent. -/
def sampleSpentCoin : Coin :=
  { TxOut := { Value := 45, Script := [2] }, Height := 10, IsCoinBase := false }

/-- The coin that `samplePayment` created. -/
def samplePaymentCoin : Coin :=
  { TxOut := { Value := 40, Script := [1] }, Height := 11, IsCoinBase := false }

/-- A sample block: the coinbase and the payment. -/
def sampleBlock : Block :=
  { Header := { Version := 1, HashPrevBlock := 20, MerkleRoot := 8, Time := 1000, Bits := 0,
                Nonce := 21 },
    Txs := [sampleCoinbase, samplePayment], Checked := false }

/-- The undo data of `sampleBlock`: one record, holding the coin the payment spent. -/
def sampleBlockUndo : BlockUndo := { txundo := [{ PrevOut := [sampleSpentCoin] }] }

/-- Undo data with one record that holds no previous output, although the
payment has one input. -/
def shortBlockUndo : BlockUndo := { txundo := [{ PrevOut := [] }] }

/-- The UTXO set after `sampleBlock` was connected: the coins of its outputs. -/
def sampleCoins : CoinsMap :=
  [({ Hash := 7, Index := 0 }, samplePaymentCoin),
   ({ Hash := 1, Index := 0 },
    { TxOut := { Value := 50, Script := [1] }, Height := 11, IsCoinBase := true })]

/-- A second coin spent by a sample payment. -/
def otherSpentCoin : Coin :=
  { TxOut := { Value := 30, Script := [3] }, Height := 9, IsCoinBase := false }

/-- A sample payment with two inputs, spending output 0 of transaction 3 and
output 1 of transaction 4, and one unspendable data output. -/
def dataPayment : Tx :=
  { Hash := 9,
    Ins := [{ PreviousOutPoint := { Hash := 3, Index := 0 }, Sequence := 0 },
            { PreviousOutPoint := { Hash := 4, Index := 1 }, Sequence := 0 }],
    Outs := [{ Value := 0, Script := [106, 5] }] }

/-- A block made of the coinbase and the data payment. -/
def dataBlock : Block :=
  { Header := { Version := 1, HashPrevBlock := 20, MerkleRoot := 10, Time := 1000, Bits := 0,
                Nonce := 23 },
    Txs := [sampleCoinbase, dataPayment], Checked := false }

/-- The undo data of `dataBlock`: one record with the two coins the data payment
spent, in input order. -/
def dataBlockUndo : BlockUndo := { txundo := [{ PrevOut := [sampleSpentCoin, otherSpentCoin] }] }

/-- A coins map that holds an entry for the data output of `dataPayment`. -/
def dataCoins : CoinsMap :=
  [({ Hash := 9, Index := 0 },
    { TxOut := { Value := 0, Script := [106, 5] }, Height := 11, IsCoinBase := false })]

/-- A state in which no condition of initial block download holds: nothing is
imported or reindexed, the tip has enough work and is recent. -/
def syncedState : IBDState :=
  { gLatchToFalse := false, GImporting := false, GfReindex := false,
    tip := some { ChainWork := 100, BlockTime := 1000 }, MinimumChainWork := 50,
    mockTime := 1500, GMaxTipAge := 86400 }

/-- A sample environment: the hash of a header is its nonce, every collaborator
check passes, the merkle root of a transaction list is the sum of its hashes,
and the disk collaborator always finds room and writes. -/
def sampleEnv : Env :=
  { GetHash := fun bh => bh.Nonce,
    GenesisHash := 0,
    CheckBlockHeader := fun _ => none,
    ContextualCheckBlockHeader := fun _ _ _ _ => none,
    CheckIndexAgainstCheckpoint := fun _ _ => none,
    BlockMerkleRoot := fun txs => ((txs.map (fun t => t.Hash)).sum, false),
    Excessiveblocksize := 32000000,
    minTransactionSize := 10,
    EncodeSize := fun b => 81 + 100 * b.Txs.length,
    SerializeSize := fun b => 81 + 100 * b.Txs.length,
    GetMaxBlockSigOpsCount := fun _ => (20000, none),
    CheckBlockTransactions := fun _ _ => none,
    ContextureCheckBlockTransactions := fun _ _ _ => none,
    IsMonolithEnabled := fun t => decide (1526400000 ≤ t),
    GetMedianTimePast := fun _ n => (n.TimeMax : Int),
    VersionBitsState := fun _ _ => ThresholdState.ThresholdActive,
    LocktimeMedianTimePast := 2,
    OneMegaByte := 1000000,
    MinBlocksToKeep := 288,
    FindBlockPos := fun _ pos _ _ _ _ => (true, pos),
    WriteBlockToDisk := fun _ _ _ => true,
    nilIndexIsValid := none }

/-- The node of the active tip in the sample worlds: height 10, work 100, body
data on disk. -/
def sampleTipNode : BlockIndex :=
  { Header := { Version := 1, HashPrevBlock := 19, MerkleRoot := 0, Time := 900, Bits := 0,
                Nonce := 20 },
    Prev := none, Height := 10, ChainWork := 100,
    Status := { HaveData := true, Failed := false, Validity := 5 },
    TxCount := 1, ChainTxCount := 11, File := 0, DataPos := 8, UndoPos := 0, TimeMax := 900 }

/-- A node for the header of `sampleBlock`, known by header only, with the given
height and cumulative work. -/
def sampleHeaderNode (height work : Int) : BlockIndex :=
  { Header := sampleBlock.Header, Prev := some 20, Height := height, ChainWork := work,
    Status := { HaveData := false, Failed := false, Validity := 2 },
    TxCount := 0, ChainTxCount := 0, File := 0, DataPos := 0, UndoPos := 0, TimeMax := 1000 }

/-- A sample world: the tip node (hash 20) and a header-only node for
`sampleBlock` (hash 21) with the given height and work; the chain height is 10. -/
def sampleWorld (height work : Int) : World :=
  { chain := { indexMap := [(21, sampleHeaderNode height work), (20, sampleTipNode)],
               tip := some 20, height := 10, branch := [20], orphan := [] },
    dirty := [], trace := [], adjustedTime := 1200 }

/-- A block without transactions whose header carries the merkle root of the
empty list. -/
def emptyBlock : Block :=
  { Header := { Version := 1, HashPrevBlock := 20, MerkleRoot := 0, Time := 1000, Bits := 0,
                Nonce := 22 },
    Txs := [], Checked := false }

/-- A sample environment whose merkle computation reports a mutation when the
transaction list ends in a repeated transaction. -/
def malleatingEnv : Env :=
  { sampleEnv with
    BlockMerkleRoot := fun txs =>
      ((txs.map (fun t => t.Hash)).sum,
       match txs.reverse with
       | a :: b :: _ => decide (a = b)
       | _ => false) }

/-- A block whose transaction list repeats its last transaction and whose header
carries the root the sample merkle computation gives for that list. -/
def malleatedBlock : Block :=
  { Header := { Version := 1, HashPrevBlock := 20, MerkleRoot := 15, Time := 1000, Bits := 0,
                Nonce := 24 },
    Txs := [sampleCoinbase, samplePayment, samplePayment], Checked := false }

/-- A sample undo-file collaborator: file 0 holds the bytes 1, 33; a record is
read as a count byte, the checksum as one byte, and reading past the end of
the file is a runtime fault for the record and an error for the checksum. -/
def sampleUndoDisk : UndoDiskEnv :=
  { OpenUndoFile := fun pos _ => if pos.File = 0 then some [1, 33] else none,
    UnserializeBlockUndo := fun bytes =>
      match bytes with
      | n :: rest => Outcome.returned (({ txundo := List.replicate n { PrevOut := [] } }, none), rest)
      | [] => Outcome.aborted,
    UnserializeHash := fun bytes =>
      match bytes with
      | h :: _ => Outcome.returned (h, none)
      | [] => Outcome.returned (0, some (Err.foreign 1)) }

/-- A sample world in which the node for `sampleBlock` (hash 21) already has its
body data recorded and is part of a branch. -/
def storedWorld : World :=
  { chain :=
      { indexMap :=
          [(21, { sampleHeaderNode 11 150 with
                    Status := { HaveData := true, Failed := false, Validity := 3 },
                    TxCount := 2, File := 0, DataPos := 300 }),
           (20, sampleTipNode)],
        tip := some 20, height := 10, branch := [21, 20], orphan := [] },
    dirty := [], trace := [], adjustedTime := 1200 }

/-- A sample environment whose transaction check rejects every block. -/
def rejectingEnv : Env :=
  { sampleEnv with
    CheckBlockTransactions := fun _ _ =>
      some (Err.NewError RejectCode.RejectInvalid "bad-txns-vin-empty") }

/-- A sample world whose only node (hash 20) carries the failed mark. -/
def failedParentWorld : World :=
  { chain :=
      { indexMap :=
          [(20, { sampleTipNode with Status := { HaveData := true, Failed := true, Validity := 2 } })],
        tip := none, height := 0, branch := [], orphan := [] },
    dirty := [], trace := [], adjustedTime := 1200 }

/-- A sample environment in which every parent violates a checkpoint. -/
def checkpointEnv : Env :=
  { sampleEnv with CheckIndexAgainstCheckpoint := fun _ _ => some (Err.foreign 7) }

/-- The sample undo environment with a `GetTxOut` that answers a nil coin with an
empty output instead of reading through the nil receiver. -/
def tolerantUndoEnv : UndoEnv :=
  { sampleUndoEnv with nilCoinTxOut := some { Value := 0, Script := [] } }

/-- The UTXO set after `dataBlock` was connected: the coinbase coin alone, the
data output of the payment being unspendable. -/
def dataBlockCoins : CoinsMap :=
  [({ Hash := 1, Index := 0 },
    { TxOut := { Value := 50, Script := [1] }, Height := 11, IsCoinBase := true })]

/-- A coins map that holds, for the data output of `dataPayment`, a coin with
another amount than the output. -/
def mismatchCoins : CoinsMap :=
  [({ Hash := 9, Index := 0 },
    { TxOut := { Value := 5, Script := [106, 5] }, Height := 11, IsCoinBase := false })]

/-- The coins of `sampleBlock` without the coin of its coinbase output. -/
def paymentOnlyCoins : CoinsMap := [({ Hash := 7, Index := 0 }, samplePaymentCoin)]

/-- The sample environment with a one-megabyte unit of 10 bytes, so that the
legacy cap is 80 bytes. -/
def smallCapEnv : Env := { sampleEnv with OneMegaByte := 10 }

/-- The sample environment with a disk collaborator that finds no room. -/
def fullDiskEnv : Env := { sampleEnv with FindBlockPos := fun _ pos _ _ _ _ => (false, pos) }

/-- The sample environment with a disk collaborator whose writes fail. -/
def brokenDiskEnv : Env := { sampleEnv with WriteBlockToDisk := fun _ _ _ => false }

/-- A sample world whose only node (hash 21) is known by header only, is not the
genesis node and has no parent link. -/
def parentlessWorld : World :=
  { chain :=
      { indexMap := [(21, { sampleHeaderNode 11 100 with Prev := none })],
        tip := none, height := 0, branch := [], orphan := [] },
    dirty := [], trace := [], adjustedTime := 1200 }

/-! ## Facts about the coins map -/

theorem FetchCoin_erase_self (cm : CoinsMap) (o : OutPoint) :
    CoinsMap.FetchCoin (CoinsMap.erase cm o) o = none := by
  induction cm with
  | nil => rfl
  | cons e rest ih =>
    obtain ⟨k, c⟩ := e
    by_cases h : k = o
    · simp [CoinsMap.erase, h, ih]
    · simp [CoinsMap.erase, CoinsMap.FetchCoin, h, ih]

theorem FetchCoin_erase_other (cm : CoinsMap) (o p : OutPoint) (hne : p ≠ o) :
    CoinsMap.FetchCoin (CoinsMap.erase cm o) p = CoinsMap.FetchCoin cm p := by
  induction cm with
  | nil => rfl
  | cons e rest ih =>
    obtain ⟨k, c⟩ := e
    by_cases h : k = o
    · have hkp : ¬ k = p := fun hk => hne (hk.symm.trans h)
      simp only [CoinsMap.erase, CoinsMap.FetchCoin, if_pos h, if_neg hkp, ih]
    · by_cases hp : k = p
      · simp only [CoinsMap.erase, CoinsMap.FetchCoin, if_neg h, if_pos hp]
      · simp only [CoinsMap.erase, CoinsMap.FetchCoin, if_neg h, if_neg hp, ih]

theorem filter_erase_self (cm : CoinsMap) (o : OutPoint) :
    List.filter (fun e => decide (e.1 = o)) (CoinsMap.erase cm o) = [] := by
  induction cm with
  | nil => rfl
  | cons e rest ih =>
    obtain ⟨k, c⟩ := e
    by_cases h : k = o
    · simp [CoinsMap.erase, h, ih]
    · simp [CoinsMap.erase, h, ih]

/-! ## The undo engine -/

/-- C1: when the number of undo records plus one differs from the number of
transactions of the block, `ApplyBlockUndo` returns `DisconnectFailed` and leaves
the coins map exactly as it was. -/
theorem ApplyBlockUndo_count_mismatch (env : UndoEnv) (blockUndo : BlockUndo) (blk : Block)
    (cm : CoinsMap) (h : blockUndo.txundo.length + 1 ≠ blk.Txs.length) :
    ApplyBlockUndo env blockUndo blk cm
      = (Outcome.returned DisconnectResult.DisconnectFailed, cm) := by
  unfold ApplyBlockUndo
  simp only [if_pos h]

/-- The count check of C1 at a concrete block: two transactions and no undo
record. -/
theorem ApplyBlockUndo_count_mismatch_sample :
    ApplyBlockUndo sampleUndoEnv { txundo := [] } sampleBlock sampleCoins
      = (Outcome.returned DisconnectResult.DisconnectFailed, sampleCoins) :=
  ApplyBlockUndo_count_mismatch sampleUndoEnv { txundo := [] } sampleBlock sampleCoins
    (by decide)

/-- C2: `UndoCoinSpend` returns `DisconnectOk` when the map holds no coin at the
location and `DisconnectUnclean` when it does, never `DisconnectFailed`; afterwards
the map holds the restored coin at the location, in a single entry, and every
other location is as before. -/
theorem UndoCoinSpend_spec (c : Coin) (cm : CoinsMap) (o : OutPoint) :
    (CoinsMap.FetchCoin cm o = none →
        (UndoCoinSpend c cm o).1 = DisconnectResult.DisconnectOk)
    ∧ (CoinsMap.FetchCoin cm o ≠ none →
        (UndoCoinSpend c cm o).1 = DisconnectResult.DisconnectUnclean)
    ∧ (UndoCoinSpend c cm o).1 ≠ DisconnectResult.DisconnectFailed
    ∧ CoinsMap.FetchCoin (UndoCoinSpend c cm o).2 o = some c
    ∧ List.filter (fun e => decide (e.1 = o)) (UndoCoinSpend c cm o).2 = [(o, c)]
    ∧ ∀ p : OutPoint, p ≠ o →
        CoinsMap.FetchCoin (UndoCoinSpend c cm o).2 p = CoinsMap.FetchCoin cm p := by
  have hmap : (UndoCoinSpend c cm o).2 = CoinsMap.AddCoin cm o c := by
    unfold UndoCoinSpend
    split <;> rfl
  refine ⟨?_, ?_, ?_, ?_, ?_, ?_⟩
  · intro h
    simp [UndoCoinSpend, h]
  · intro h
    cases hf : CoinsMap.FetchCoin cm o with
    | none => exact absurd hf h
    | some v => simp [UndoCoinSpend, hf]
  · cases hf : CoinsMap.FetchCoin cm o <;> simp [UndoCoinSpend, hf]
  · rw [hmap]
    simp [CoinsMap.AddCoin, CoinsMap.FetchCoin]
  · rw [hmap]
    simp [CoinsMap.AddCoin, filter_erase_self]
  · intro p hp
    rw [hmap]
    have hne : o ≠ p := fun h => hp h.symm
    simp [CoinsMap.AddCoin, CoinsMap.FetchCoin, hne, FetchCoin_erase_other cm o p hp]

/-- The overwrite case of C2 at a concrete map: restoring at a location that
holds a coin reports `DisconnectUnclean`. -/
theorem UndoCoinSpend_spec_sample :
    (UndoCoinSpend sampleSpentCoin sampleCoins { Hash := 7, Index := 0 }).1
      = DisconnectResult.DisconnectUnclean :=
  (UndoCoinSpend_spec sampleSpentCoin sampleCoins { Hash := 7, Index := 0 }).2.1 (by decide)

/-- C3: the latch does not hold. On `syncedState` the call returns false and sets
the latch; once the import flag is raised, the next call clears the latch on
entry and returns true. -/
theorem IsInitialBlockDownload_latch_reset :
    (IsInitialBlockDownload syncedState).1 = false
    ∧ (IsInitialBlockDownload syncedState).2.gLatchToFalse = true
    ∧ (IsInitialBlockDownload
        { (IsInitialBlockDownload syncedState).2 with GImporting := true }).1 = true := by
  decide

/-- C4: the coin of a spendable output is not removed. `samplePayment` has one
spendable output whose coin is in the set; the call returns `DisconnectOk` and
the set still holds that coin. -/
theorem ApplyBlockUndo_keeps_spendable_output :
    sampleUndoEnv.IsSpendable { Value := 40, Script := [1] } = true
    ∧ (ApplyBlockUndo sampleUndoEnv sampleBlockUndo sampleBlock sampleCoins).1
        = Outcome.returned DisconnectResult.DisconnectOk
    ∧ CoinsMap.FetchCoin
        (ApplyBlockUndo sampleUndoEnv sampleBlockUndo sampleBlock sampleCoins).2
        { Hash := 7, Index := 0 } = some samplePaymentCoin := by
  decide

/-- C5: the inputs are not restored. On `sampleBlock` with its undo data the call
returns `DisconnectOk` and the set holds no coin at the outpoint the payment
spent. On `dataBlock`, whose payment has an unspendable output, input 1 is
restored and input 0 is not. -/
theorem ApplyBlockUndo_skips_input_restore :
    (ApplyBlockUndo sampleUndoEnv sampleBlockUndo sampleBlock sampleCoins).1
        = Outcome.returned DisconnectResult.DisconnectOk
    ∧ CoinsMap.FetchCoin
        (ApplyBlockUndo sampleUndoEnv sampleBlockUndo sampleBlock sampleCoins).2
        { Hash := 3, Index := 0 } = none
    ∧ (ApplyBlockUndo sampleUndoEnv dataBlockUndo dataBlock dataCoins).1
        = Outcome.returned DisconnectResult.DisconnectOk
    ∧ CoinsMap.FetchCoin (ApplyBlockUndo sampleUndoEnv dataBlockUndo dataBlock dataCoins).2
        { Hash := 4, Index := 1 } = some otherSpentCoin
    ∧ CoinsMap.FetchCoin (ApplyBlockUndo sampleUndoEnv dataBlockUndo dataBlock dataCoins).2
        { Hash := 3, Index := 0 } = none := by
  decide

/-- C6: a record with the wrong number of previous outputs is not detected. The
record of `shortBlockUndo` holds no previous output while the payment has one
input, and the call returns `DisconnectOk`. -/
theorem ApplyBlockUndo_misses_record_mismatch :
    (shortBlockUndo.txundo.map (fun u => u.PrevOut.length)) = [0]
    ∧ samplePayment.Ins.length = 1
    ∧ (ApplyBlockUndo sampleUndoEnv shortBlockUndo sampleBlock sampleCoins).1
        = Outcome.returned DisconnectResult.DisconnectOk := by
  decide

/-! ## The header validator -/

theorem FindBlockIndex_head (m : List (UtilHash × BlockIndex)) (h : UtilHash) (b : BlockIndex) :
    FindBlockIndex ((h, b) :: m) h = some b := by
  simp [FindBlockIndex]

/-- A node made by the parent linking carries the header and no failure mark. -/
theorem linkParent_node (env : Env) (bh : BlockHeader) (w : World) (b : BlockIndex)
    (h : linkParent env bh w = Sum.inl b) : b.Header = bh ∧ b.Status.Failed = false := by
  unfold linkParent at h
  simp only [] at h
  split at h
  · split at h
    · cases h
    · split at h
      · cases h
      · split at h
        · cases h
        · split at h
          · cases h
          · cases h
            exact ⟨rfl, rfl⟩
  · cases h
    exact ⟨rfl, rfl⟩

/-- The three ways `AcceptBlockHeader` ends: with the node already in the index,
with an error and no node, or with a fresh, unfailed node inserted under the
hash of the header. -/
theorem AcceptBlockHeader_cases (env : Env) (bh : BlockHeader) (w : World) :
    (∃ b, FindBlockIndex w.chain.indexMap (env.GetHash bh) = some b
        ∧ AcceptBlockHeader env bh w
            = ((some b, if b.IsInvalid then some (Err.New ChainErrCode.ErrorBlockHeaderNoValid)
                        else none), w))
    ∨ (∃ err, AcceptBlockHeader env bh w = ((none, some err), w))
    ∨ (∃ b, b.Status.Failed = false
        ∧ AcceptBlockHeader env bh w
            = ((some b, none),
               { w with chain :=
                  { w.chain with indexMap := (env.GetHash bh, b) :: w.chain.indexMap } })) := by
  cases hFind : FindBlockIndex w.chain.indexMap (env.GetHash bh) with
  | some b =>
    left
    refine ⟨b, rfl, ?_⟩
    unfold AcceptBlockHeader
    simp only [hFind]
    split <;> rfl
  | none =>
    right
    unfold AcceptBlockHeader
    simp only [hFind]
    cases hChk : env.CheckBlockHeader bh with
    | some err => left; exact ⟨err, rfl⟩
    | none =>
      cases hLink : linkParent env bh w with
      | inr err => left; exact ⟨err, rfl⟩
      | inl b =>
        right
        obtain ⟨hHeader, hStatus⟩ := linkParent_node env bh w b hLink
        refine ⟨b, hStatus, ?_⟩
        simp only [AddToIndexMap, hHeader, hFind]

/-- What an accepted header leaves behind: the returned node is not failed and is
the node stored under the hash of the header; the history of recorded calls
and the dirty registry are untouched. -/
theorem AcceptBlockHeader_accepted (env : Env) (bh : BlockHeader) (w w1 : World)
    (b : BlockIndex) (h : AcceptBlockHeader env bh w = ((some b, none), w1)) :
    b.Status.Failed = false
    ∧ FindBlockIndex w1.chain.indexMap (env.GetHash bh) = some b
    ∧ w1.trace = w.trace ∧ w1.dirty = w.dirty := by
  rcases AcceptBlockHeader_cases env bh w with ⟨b0, hFind, hEq⟩ | ⟨err, hEq⟩ | ⟨b0, hOk, hEq⟩
  · rw [hEq] at h
    cases hInv : b0.IsInvalid with
    | true => simp [hInv] at h
    | false =>
      simp [hInv] at h
      obtain ⟨hb, hw⟩ := h
      subst hb
      subst hw
      exact ⟨hInv, hFind, rfl, rfl⟩
  · rw [hEq] at h
    simp at h
  · rw [hEq] at h
    simp at h
    obtain ⟨hb, hw⟩ := h
    subst hb
    subst hw
    exact ⟨hOk, FindBlockIndex_head _ _ _, rfl, rfl⟩

/-! ## Facts about the block acceptor -/

theorem wrapInt_32_id (x : Int) (hLo : -2 ^ 31 ≤ x) (hHi : x < 2 ^ 31) : wrapInt 32 x = x := by
  unfold wrapInt
  norm_num at hLo hHi ⊢
  omega

theorem WriteBlockToDisk_trace (env : Env) (bi : BlockIndex) (bl : Block)
    (inDbp : Option DiskBlockPos) (w : World) :
    ∃ rest, (WriteBlockToDisk env bi bl inDbp w).2.trace = w.trace ++ rest := by
  unfold WriteBlockToDisk
  simp only []
  split
  · exact ⟨_, rfl⟩
  · split
    · split
      · simp only [World.record, List.append_assoc]
        exact ⟨_, rfl⟩
      · simp only [World.record, List.append_assoc]
        exact ⟨_, rfl⟩
    · exact ⟨_, rfl⟩

theorem ReceivedBlockTransactions_trace (env : Env) (pblock : Block) (key : UtilHash)
    (pos : DiskBlockPos) (w : World) :
    (ReceivedBlockTransactions env pblock key pos w).2.trace = w.trace := by
  unfold ReceivedBlockTransactions
  simp only []
  split
  · rfl
  · split
    · rfl
    · split
      · rfl
      · split <;> rfl

/-- Once the gates are passed, the entry into `CheckBlock` is the next call
recorded. -/
theorem acceptChecked_trace (env : Env) (pblock : Block) (key : UtilHash) (bIndex : BlockIndex)
    (inDbp : Option DiskBlockPos) (w1 : World) :
    ∃ rest, (acceptChecked env pblock key bIndex inDbp w1).2.trace
      = w1.trace ++ Event.CheckBlock pblock :: rest := by
  unfold acceptChecked
  simp only []
  split
  · exact ⟨[], rfl⟩
  · split
    · simp only [World.record, AddDirtyBlockIndex, List.append_assoc, List.singleton_append]
      exact ⟨_, rfl⟩
    · obtain ⟨rest, hRest⟩ := WriteBlockToDisk_trace env bIndex (CheckBlock env pblock true true).2
        inDbp ((w1.record (Event.CheckBlock pblock)).record
          (Event.ContextualCheckBlock (CheckBlock env pblock true true).2))
      split
      · rw [hRest]
        simp only [World.record, List.append_assoc, List.singleton_append, List.cons_append]
        exact ⟨_, rfl⟩
      · rw [hRest]
        simp only [World.record, List.append_assoc, List.singleton_append, List.cons_append]
        exact ⟨_, rfl⟩
      · rw [ReceivedBlockTransactions_trace, hRest]
        simp only [World.record, List.append_assoc, List.singleton_append, List.cons_append]
        exact ⟨_, rfl⟩

/-! ## The block acceptor -/

/-- C7: an unsolicited block whose header is accepted and whose node has no body
data is refused with code 3008 when a tip exists and the node does not have
strictly more work than the tip (equal work included): the node comes back
unfailed and unchanged in the index, the block is untouched, and no check and no
disk call is recorded. With no tip the work requirement passes: the block is
refused as too far ahead (3007) or reaches `CheckBlock`. -/
theorem AcceptBlock_insufficient_work (env : Env) (pblock : Block)
    (inDbp : Option DiskBlockPos) (w w1 : World) (bIndex : BlockIndex)
    (hHdr : AcceptBlockHeader env pblock.Header w = ((some bIndex, none), w1))
    (hData : bIndex.HasData = false) :
    (∀ tip, w1.chain.Tip = some tip → bIndex.ChainWork ≤ tip.ChainWork →
        AcceptBlock env pblock false inDbp w
          = ({ bIndex := some bIndex, outDbp := none, err := some (Err.ProjectError 3008),
               fNewBlock := false, pblock := pblock, aborted := false }, w1)
        ∧ FindBlockIndex w1.chain.indexMap (env.GetHash pblock.Header) = some bIndex
        ∧ bIndex.Status.Failed = false
        ∧ w1.trace = w.trace ∧ w1.dirty = w.dirty)
    ∧ (w1.chain.Tip = none →
        (bIndex.Height > wrapInt 32 (w1.chain.Height + env.MinBlocksToKeep) →
          AcceptBlock env pblock false inDbp w
            = ({ bIndex := some bIndex, outDbp := none, err := some (Err.ProjectError 3007),
                 fNewBlock := false, pblock := pblock, aborted := false }, w1))
        ∧ (¬ bIndex.Height > wrapInt 32 (w1.chain.Height + env.MinBlocksToKeep) →
          ∃ rest, (AcceptBlock env pblock false inDbp w).2.trace
            = w.trace ++ Event.CheckBlock pblock :: rest)) := by
  obtain ⟨hOk, hFind, hTrace, hDirty⟩ :=
    AcceptBlockHeader_accepted env pblock.Header w w1 bIndex hHdr
  refine ⟨?_, ?_⟩
  · intro tip hTip hWork
    refine ⟨?_, hFind, hOk, hTrace, hDirty⟩
    have hNot : ¬ bIndex.ChainWork > tip.ChainWork := not_lt.mpr hWork
    simp [AcceptBlock, hHdr, hData, hTip, hNot]
  · intro hTip
    refine ⟨?_, ?_⟩
    · intro hFar
      simp [AcceptBlock, hHdr, hData, hTip, hFar]
    · intro hNear
      obtain ⟨rest, hRest⟩ :=
        acceptChecked_trace env pblock (env.GetHash pblock.Header) bIndex inDbp w1
      refine ⟨rest, ?_⟩
      rw [← hTrace, ← hRest]
      simp [AcceptBlock, hHdr, hData, hTip, hNear]

/-- The scenario of C7: the tip and the candidate both have work 100. -/
theorem AcceptBlock_insufficient_work_sample :
    AcceptBlock sampleEnv sampleBlock false none (sampleWorld 11 100)
      = ({ bIndex := some (sampleHeaderNode 11 100), outDbp := none,
           err := some (Err.ProjectError 3008), fNewBlock := false, pblock := sampleBlock,
           aborted := false }, sampleWorld 11 100) :=
  ((AcceptBlock_insufficient_work sampleEnv sampleBlock none (sampleWorld 11 100)
      (sampleWorld 11 100) (sampleHeaderNode 11 100) (by decide) (by decide)).1
    sampleTipNode (by decide) (by decide)).1

/-- C8: an unsolicited block whose header is accepted, whose node has no body
data and which passes the work requirement is refused with code 3007 when the
height of its node is strictly greater than the chain height plus
`MinBlocksToKeep`: the node comes back unfailed and unchanged in the index, no
position is returned, and no check and no disk call is recorded. A height equal
to the chain height plus `MinBlocksToKeep` is let through to `CheckBlock`. -/
theorem AcceptBlock_too_far_ahead (env : Env) (pblock : Block)
    (inDbp : Option DiskBlockPos) (w w1 : World) (bIndex : BlockIndex)
    (hHdr : AcceptBlockHeader env pblock.Header w = ((some bIndex, none), w1))
    (hData : bIndex.HasData = false)
    (hWork : w1.chain.Tip = none
      ∨ ∃ tip, w1.chain.Tip = some tip ∧ tip.ChainWork < bIndex.ChainWork)
    (hCur : -2 ^ 31 ≤ w1.chain.Height) (hMax : bIndex.Height < 2 ^ 31)
    (hKeep : 0 ≤ env.MinBlocksToKeep) :
    (w1.chain.Height + env.MinBlocksToKeep < bIndex.Height →
        AcceptBlock env pblock false inDbp w
          = ({ bIndex := some bIndex, outDbp := none, err := some (Err.ProjectError 3007),
               fNewBlock := false, pblock := pblock, aborted := false }, w1)
        ∧ FindBlockIndex w1.chain.indexMap (env.GetHash pblock.Header) = some bIndex
        ∧ bIndex.Status.Failed = false
        ∧ w1.trace = w.trace ∧ w1.dirty = w.dirty)
    ∧ (bIndex.Height = w1.chain.Height + env.MinBlocksToKeep →
        ∃ rest, (AcceptBlock env pblock false inDbp w).2.trace
          = w.trace ++ Event.CheckBlock pblock :: rest) := by
  obtain ⟨hOk, hFind, hTrace, hDirty⟩ :=
    AcceptBlockHeader_accepted env pblock.Header w w1 bIndex hHdr
  have hMore : (match w1.chain.Tip with
      | none => true
      | some tip => decide (bIndex.ChainWork > tip.ChainWork)) = true := by
    rcases hWork with hNone | ⟨tip, hTip, hLt⟩
    · simp [hNone]
    · simp [hTip, hLt]
  refine ⟨?_, ?_⟩
  · intro hFar
    refine ⟨?_, hFind, hOk, hTrace, hDirty⟩
    have hWrap : wrapInt 32 (w1.chain.Height + env.MinBlocksToKeep)
        = w1.chain.Height + env.MinBlocksToKeep :=
      wrapInt_32_id _ (by omega) (by omega)
    simp [AcceptBlock, hHdr, hData, hMore, hWrap, hFar]
  · intro hEq
    have hWrap : wrapInt 32 (w1.chain.Height + env.MinBlocksToKeep)
        = w1.chain.Height + env.MinBlocksToKeep :=
      wrapInt_32_id _ (by omega) (by omega)
    obtain ⟨rest, hRest⟩ :=
      acceptChecked_trace env pblock (env.GetHash pblock.Header) bIndex inDbp w1
    refine ⟨rest, ?_⟩
    rw [← hTrace, ← hRest]
    simp [AcceptBlock, hHdr, hData, hMore, hWrap, hEq]

/-- The scenario of C8: chain height 10, `MinBlocksToKeep` 288, a node with more
work than the tip at height 299. -/
theorem AcceptBlock_too_far_ahead_sample :
    AcceptBlock sampleEnv sampleBlock false none (sampleWorld 299 500)
      = ({ bIndex := some (sampleHeaderNode 299 500), outDbp := none,
           err := some (Err.ProjectError 3007), fNewBlock := false, pblock := sampleBlock,
           aborted := false }, sampleWorld 299 500) :=
  ((AcceptBlock_too_far_ahead sampleEnv sampleBlock none (sampleWorld 299 500)
      (sampleWorld 299 500) (sampleHeaderNode 299 500) (by decide) (by decide)
      (Or.inr ⟨sampleTipNode, by decide, by decide⟩) (by decide) (by decide) (by decide)).1
    (by decide)).1

/-- C10, as stated, fails: a block without transactions whose checked flag is set
passes `CheckBlock`, and an unchecked one whose header carries another merkle
root than that of the empty list is rejected for the merkle root. -/
theorem CheckBlock_empty_other_outcomes :
    ({ emptyBlock with Checked := true } : Block).Txs = []
    ∧ (CheckBlock sampleEnv { emptyBlock with Checked := true } true true).1 = none
    ∧ ({ emptyBlock with Header := sampleBlock.Header } : Block).Txs = []
    ∧ (CheckBlock sampleEnv { emptyBlock with Header := sampleBlock.Header } true true).1
        = some (Err.NewError RejectCode.RejectInvalid "bad-txnmrklroot") := by
  decide

/-- C10, amended: a block without transactions whose checked flag is not set is
rejected with "bad-cb-missing", and its checked flag stays unset, provided the
checks that come first pass: the header check when it is enabled, and, when
the merkle check is enabled, the recomputed root equals the root of the header
and reports no mutation. -/
theorem CheckBlock_empty (env : Env) (pblock : Block) (checkHeader checkMerlke : Bool)
    (hTxs : pblock.Txs = []) (hUnchecked : pblock.Checked = false)
    (hHeader : checkHeader = true → env.CheckBlockHeader pblock.Header = none)
    (hMerkle : checkMerlke = true →
      (env.BlockMerkleRoot pblock.Txs).1 = pblock.Header.MerkleRoot
      ∧ (env.BlockMerkleRoot pblock.Txs).2 = false) :
    CheckBlock env pblock checkHeader checkMerlke
      = (some (Err.NewError RejectCode.RejectInvalid "bad-cb-missing"), pblock) := by
  unfold CheckBlock
  cases checkHeader <;> cases checkMerlke <;> simp_all

/-- The amended C10 at `emptyBlock`, with both checks enabled. -/
theorem CheckBlock_empty_sample :
    CheckBlock sampleEnv emptyBlock true true
      = (some (Err.NewError RejectCode.RejectInvalid "bad-cb-missing"), emptyBlock) :=
  CheckBlock_empty sampleEnv emptyBlock true true (by decide) (by decide)
    (fun _ => by decide) (fun _ => by decide)

/-! ## The structural check and the undo file -/

/-- C11: a block that is not yet checked, passes the header check when that check
is enabled, and whose merkle computation reports a mutation while the
recomputed root equals the root of the header, is rejected by `CheckBlock` with
merkle checking enabled for "bad-txns-duplicate"; the block, with its checked
flag unset, is left as it was. -/
theorem CheckBlock_malleated (env : Env) (pblock : Block) (checkHeader : Bool)
    (hUnchecked : pblock.Checked = false)
    (hHeader : checkHeader = true → env.CheckBlockHeader pblock.Header = none)
    (hRoot : (env.BlockMerkleRoot pblock.Txs).1 = pblock.Header.MerkleRoot)
    (hMutated : (env.BlockMerkleRoot pblock.Txs).2 = true) :
    CheckBlock env pblock checkHeader true
      = (some (Err.NewError RejectCode.RejectInvalid "bad-txns-duplicate"), pblock)
    ∧ (CheckBlock env pblock checkHeader true).2.Checked = false := by
  have hMain : CheckBlock env pblock checkHeader true
      = (some (Err.NewError RejectCode.RejectInvalid "bad-txns-duplicate"), pblock) := by
    unfold CheckBlock
    cases checkHeader <;> simp_all
  exact ⟨hMain, by rw [hMain]; exact hUnchecked⟩

/-- C11 at `malleatedBlock`: the repeated last transaction keeps the root and is
reported as a duplicate. -/
theorem CheckBlock_malleated_sample :
    CheckBlock malleatingEnv malleatedBlock true true
      = (some (Err.NewError RejectCode.RejectInvalid "bad-txns-duplicate"), malleatedBlock) :=
  (CheckBlock_malleated malleatingEnv malleatedBlock true (by decide) (fun _ => by decide)
    (by decide) (by decide)).1

/-- C12: `UndoReadFromDisk` answers ok exactly when the undo file opens, the record
deserializes without error or fault, the checksum deserializes without error
or fault, and the checksum equals the expected block hash; when both
deserializations succeed and the checksum differs, it hands back the record
with ok false. -/
theorem UndoReadFromDisk_ok_iff (env : UndoDiskEnv) (pos : DiskBlockPos) (hashblock : UtilHash) :
    ((UndoReadFromDisk env pos hashblock).2 = true ↔
      ∃ file bu rest,
        env.OpenUndoFile pos true = some file
        ∧ env.UnserializeBlockUndo file = Outcome.returned ((bu, none), rest)
        ∧ env.UnserializeHash rest = Outcome.returned (hashblock, none))
    ∧ (∀ file bu rest checksum,
        env.OpenUndoFile pos true = some file →
        env.UnserializeBlockUndo file = Outcome.returned ((bu, none), rest) →
        env.UnserializeHash rest = Outcome.returned (checksum, none) →
        checksum ≠ hashblock →
        UndoReadFromDisk env pos hashblock = (some bu, false)) := by
  refine ⟨?_, ?_⟩
  · unfold UndoReadFromDisk
    constructor
    · intro h
      split at h
      · simp at h
      · rename_i file hOpen
        split at h
        · simp at h
        · simp at h
        · rename_i bu rest hBody
          split at h
          · simp at h
          · simp at h
          · rename_i checksum hSum
            simp at h
            subst h
            exact ⟨file, bu, rest, hOpen, hBody, hSum⟩
    · rintro ⟨file, bu, rest, hOpen, hBody, hSum⟩
      simp [hOpen, hBody, hSum]
  · intro file bu rest checksum hOpen hBody hSum hNe
    unfold UndoReadFromDisk
    simp [hOpen, hBody, hSum, hNe]

/-- C12 at the sample undo file: the stored checksum is 33, so the read succeeds
for block hash 33. -/
theorem UndoReadFromDisk_ok_sample :
    (UndoReadFromDisk sampleUndoDisk { File := 0, Pos := 0 } 33).2 = true :=
  (UndoReadFromDisk_ok_iff sampleUndoDisk { File := 0, Pos := 0 } 33).1.2
    ⟨[1, 33], { txundo := [{ PrevOut := [] }] }, [33], by decide, by decide, by decide⟩

/-! ## More facts about the index and the block acceptor -/

theorem FindBlockIndex_modifyIndex_self (f : BlockIndex → BlockIndex)
    (m : List (UtilHash × BlockIndex)) (k : UtilHash) :
    FindBlockIndex (modifyIndex f m k) k = (FindBlockIndex m k).map f := by
  induction m with
  | nil => rfl
  | cons e rest ih =>
    obtain ⟨h, n⟩ := e
    by_cases hk : h = k
    · simp only [modifyIndex, FindBlockIndex, if_pos hk, Option.map_some']
    · simp only [modifyIndex, FindBlockIndex, if_neg hk, ih]

theorem FindBlockIndex_modifyIndex_other (f : BlockIndex → BlockIndex)
    (m : List (UtilHash × BlockIndex)) (k h : UtilHash) (hne : h ≠ k) :
    FindBlockIndex (modifyIndex f m k) h = FindBlockIndex m h := by
  induction m with
  | nil => rfl
  | cons e rest ih =>
    obtain ⟨h0, n⟩ := e
    by_cases hk : h0 = k
    · have hh : ¬ h0 = h := fun e => hne (e.symm.trans hk)
      simp only [modifyIndex, FindBlockIndex, if_pos hk, if_neg hh]
    · by_cases hh : h0 = h
      · simp only [modifyIndex, FindBlockIndex, if_neg hk, if_pos hh]
      · simp only [modifyIndex, FindBlockIndex, if_neg hk, if_neg hh, ih]

theorem mem_AddDirtyBlockIndex (w : World) (h : UtilHash) : h ∈ (AddDirtyBlockIndex w h).dirty := by
  unfold AddDirtyBlockIndex
  by_cases hm : h ∈ w.dirty
  · simp [hm]
  · simp [hm]

/-- The header validator touches nothing but the index map. -/
theorem AcceptBlockHeader_frame (env : Env) (bh : BlockHeader) (w : World) :
    (AcceptBlockHeader env bh w).2.chain.tip = w.chain.tip
    ∧ (AcceptBlockHeader env bh w).2.chain.height = w.chain.height
    ∧ (AcceptBlockHeader env bh w).2.chain.branch = w.chain.branch
    ∧ (AcceptBlockHeader env bh w).2.chain.orphan = w.chain.orphan
    ∧ (AcceptBlockHeader env bh w).2.dirty = w.dirty
    ∧ (AcceptBlockHeader env bh w).2.trace = w.trace
    ∧ (AcceptBlockHeader env bh w).2.adjustedTime = w.adjustedTime := by
  rcases AcceptBlockHeader_cases env bh w with ⟨b0, _, hEq⟩ | ⟨err, hEq⟩ | ⟨b0, _, hEq⟩ <;>
    rw [hEq] <;> exact ⟨rfl, rfl, rfl, rfl, rfl, rfl, rfl⟩

/-- A node made by the parent linking has no body data. -/
theorem linkParent_no_data (env : Env) (bh : BlockHeader) (w : World) (b : BlockIndex)
    (h : linkParent env bh w = Sum.inl b) : b.Status.HaveData = false := by
  unfold linkParent at h
  simp only [] at h
  split at h
  · split at h
    · cases h
    · split at h
      · cases h
      · split at h
        · cases h
        · split at h
          · cases h
          · cases h
            rfl
  · cases h
    rfl

/-- An accepted header whose node has body data was in the index before the call,
and the call changed nothing. -/
theorem AcceptBlockHeader_with_data (env : Env) (bh : BlockHeader) (w w1 : World)
    (b : BlockIndex) (h : AcceptBlockHeader env bh w = ((some b, none), w1))
    (hData : b.HasData = true) :
    w1 = w ∧ FindBlockIndex w.chain.indexMap (env.GetHash bh) = some b := by
  unfold AcceptBlockHeader at h
  cases hFind : FindBlockIndex w.chain.indexMap (env.GetHash bh) with
  | some b0 =>
    simp only [hFind] at h
    split at h
    · simp at h
    · simp at h
      obtain ⟨hb, hw⟩ := h
      subst hb
      exact ⟨hw.symm, rfl⟩
  | none =>
    simp only [hFind] at h
    cases hChk : env.CheckBlockHeader bh with
    | some err => simp [hChk] at h
    | none =>
      simp only [hChk] at h
      cases hLink : linkParent env bh w with
      | inr err => simp [hLink] at h
      | inl b1 =>
        obtain ⟨hHeader, _⟩ := linkParent_node env bh w b1 hLink
        have hNoData := linkParent_no_data env bh w b1 hLink
        simp [hLink, AddToIndexMap, hHeader, hFind] at h
        obtain ⟨hb, _⟩ := h
        subst hb
        simp [BlockIndex.HasData, hNoData] at hData

/-- Past the data test and the gates for unsolicited blocks, `AcceptBlock` is the
checked part run on the world the header validator left. -/
theorem AcceptBlock_past_gates (env : Env) (pblock : Block) (fRequested : Bool)
    (inDbp : Option DiskBlockPos) (w w1 : World) (bIndex : BlockIndex)
    (hHdr : AcceptBlockHeader env pblock.Header w = ((some bIndex, none), w1))
    (hData : bIndex.HasData = false)
    (hGate : fRequested = true
      ∨ ((w1.chain.Tip = none ∨ ∃ tip, w1.chain.Tip = some tip ∧ tip.ChainWork < bIndex.ChainWork)
          ∧ ¬ bIndex.Height > wrapInt 32 (w1.chain.Height + env.MinBlocksToKeep))) :
    AcceptBlock env pblock fRequested inDbp w
      = acceptChecked env pblock (env.GetHash pblock.Header) bIndex inDbp w1 := by
  rcases hGate with hReq | ⟨hWork, hNear⟩
  · simp [AcceptBlock, hHdr, hData, hReq]
  · have hMore : (match w1.chain.Tip with
        | none => true
        | some tip => decide (bIndex.ChainWork > tip.ChainWork)) = true := by
      rcases hWork with hNone | ⟨tip, hTip, hLt⟩
      · simp [hNone]
      · simp [hTip, hLt]
    simp [AcceptBlock, hHdr, hData, hMore, hNear]

theorem markFailed_find (c : Chain) (key : UtilHash) (b : BlockIndex)
    (h : FindBlockIndex c.indexMap key = some b) :
    FindBlockIndex (markFailed c key).indexMap key
      = some (b.AddStatus StatusFlag.BlockFailed) := by
  simp [markFailed, Chain.modify, FindBlockIndex_modifyIndex_self, h]

/-! ## The block acceptor: re-submission and failed checks -/

/-- C13: when the header is accepted and its node already has body data,
`AcceptBlock` returns that node with no error, no position and the new-block
flag false, whether the block was requested or not, and leaves the world (index
nodes, branch and orphan sets, dirty registry, recorded calls) and the block
exactly as they were. -/
theorem AcceptBlock_resubmission (env : Env) (pblock : Block) (fRequested : Bool)
    (inDbp : Option DiskBlockPos) (w w1 : World) (bIndex : BlockIndex)
    (hHdr : AcceptBlockHeader env pblock.Header w = ((some bIndex, none), w1))
    (hData : bIndex.HasData = true) :
    AcceptBlock env pblock fRequested inDbp w
      = ({ bIndex := some bIndex, outDbp := none, err := none, fNewBlock := false,
           pblock := pblock, aborted := false }, w)
    ∧ FindBlockIndex w.chain.indexMap (env.GetHash pblock.Header) = some bIndex := by
  obtain ⟨hSame, hFind⟩ := AcceptBlockHeader_with_data env pblock.Header w w1 bIndex hHdr hData
  subst hSame
  refine ⟨?_, hFind⟩
  simp [AcceptBlock, hHdr, hData]

/-- C13 at `storedWorld`: the unsolicited `sampleBlock` is answered with its stored
node and nothing changes. -/
theorem AcceptBlock_resubmission_sample :
    (AcceptBlock sampleEnv sampleBlock false none storedWorld).1.err = none
    ∧ (AcceptBlock sampleEnv sampleBlock false none storedWorld).1.fNewBlock = false
    ∧ (AcceptBlock sampleEnv sampleBlock false none storedWorld).2 = storedWorld := by
  have h := (AcceptBlock_resubmission sampleEnv sampleBlock false none storedWorld storedWorld
    { sampleHeaderNode 11 150 with
        Status := { HaveData := true, Failed := false, Validity := 3 },
        TxCount := 2, File := 0, DataPos := 300 } (by decide) (by decide)).1
  rw [h]
  exact ⟨rfl, rfl, rfl⟩

/-- C14: when the header is accepted, the node has no body data and the gates for
unsolicited blocks are passed, a failure of `CheckBlock`, or of
`ContextualCheckBlock` after `CheckBlock` passed, makes `AcceptBlock` return
exactly that error with no position: the node is stored with the failed mark
and without body data, it is in the dirty registry, the branch and orphan sets
are as before, and the recorded calls are the checks alone, with no disk call. -/
theorem AcceptBlock_check_failure (env : Env) (pblock : Block) (fRequested : Bool)
    (inDbp : Option DiskBlockPos) (w w1 : World) (bIndex : BlockIndex)
    (hHdr : AcceptBlockHeader env pblock.Header w = ((some bIndex, none), w1))
    (hData : bIndex.HasData = false)
    (hGate : fRequested = true
      ∨ ((w1.chain.Tip = none ∨ ∃ tip, w1.chain.Tip = some tip ∧ tip.ChainWork < bIndex.ChainWork)
          ∧ ¬ bIndex.Height > wrapInt 32 (w1.chain.Height + env.MinBlocksToKeep))) :
    (∀ err, (CheckBlock env pblock true true).1 = some err →
        (AcceptBlock env pblock fRequested inDbp w).1.err = some err
        ∧ (AcceptBlock env pblock fRequested inDbp w).1.outDbp = none
        ∧ (AcceptBlock env pblock fRequested inDbp w).1.aborted = false
        ∧ (AcceptBlock env pblock fRequested inDbp w).1.bIndex
            = some (bIndex.AddStatus StatusFlag.BlockFailed)
        ∧ FindBlockIndex (AcceptBlock env pblock fRequested inDbp w).2.chain.indexMap
            (env.GetHash pblock.Header) = some (bIndex.AddStatus StatusFlag.BlockFailed)
        ∧ (bIndex.AddStatus StatusFlag.BlockFailed).Status.Failed = true
        ∧ (bIndex.AddStatus StatusFlag.BlockFailed).Status.HaveData = false
        ∧ env.GetHash pblock.Header ∈ (AcceptBlock env pblock fRequested inDbp w).2.dirty
        ∧ (AcceptBlock env pblock fRequested inDbp w).2.chain.branch = w.chain.branch
        ∧ (AcceptBlock env pblock fRequested inDbp w).2.chain.orphan = w.chain.orphan
        ∧ (AcceptBlock env pblock fRequested inDbp w).2.trace
            = w.trace ++ [Event.CheckBlock pblock])
    ∧ (∀ err, (CheckBlock env pblock true true).1 = none →
        ContextualCheckBlock env w1.chain (CheckBlock env pblock true true).2
            (bIndex.Prev.bind (FindBlockIndex w1.chain.indexMap)) = some err →
        (AcceptBlock env pblock fRequested inDbp w).1.err = some err
        ∧ (AcceptBlock env pblock fRequested inDbp w).1.outDbp = none
        ∧ (AcceptBlock env pblock fRequested inDbp w).1.aborted = false
        ∧ (AcceptBlock env pblock fRequested inDbp w).1.bIndex
            = some (bIndex.AddStatus StatusFlag.BlockFailed)
        ∧ FindBlockIndex (AcceptBlock env pblock fRequested inDbp w).2.chain.indexMap
            (env.GetHash pblock.Header) = some (bIndex.AddStatus StatusFlag.BlockFailed)
        ∧ (bIndex.AddStatus StatusFlag.BlockFailed).Status.Failed = true
        ∧ (bIndex.AddStatus StatusFlag.BlockFailed).Status.HaveData = false
        ∧ env.GetHash pblock.Header ∈ (AcceptBlock env pblock fRequested inDbp w).2.dirty
        ∧ (AcceptBlock env pblock fRequested inDbp w).2.chain.branch = w.chain.branch
        ∧ (AcceptBlock env pblock fRequested inDbp w).2.chain.orphan = w.chain.orphan
        ∧ (AcceptBlock env pblock fRequested inDbp w).2.trace
            = w.trace ++ [Event.CheckBlock pblock,
                Event.ContextualCheckBlock (CheckBlock env pblock true true).2]) := by
  obtain ⟨_, hFind, hTrace, _⟩ := AcceptBlockHeader_accepted env pblock.Header w w1 bIndex hHdr
  have hFrame := AcceptBlockHeader_frame env pblock.Header w
  rw [hHdr] at hFrame
  obtain ⟨_, _, hBranch, hOrphan, _, _, _⟩ := hFrame
  simp only at hBranch hOrphan
  have hMark := markFailed_find w1.chain (env.GetHash pblock.Header) bIndex hFind
  have hNoData : (bIndex.AddStatus StatusFlag.BlockFailed).Status.HaveData = false := by
    simpa [BlockIndex.AddStatus, BlockIndex.HasData] using hData
  rw [AcceptBlock_past_gates env pblock fRequested inDbp w w1 bIndex hHdr hData hGate]
  refine ⟨?_, ?_⟩
  · intro err hChk
    unfold acceptChecked
    simp only [hChk]
    refine ⟨trivial, trivial, trivial, ?_, ?_, rfl, hNoData, mem_AddDirtyBlockIndex _ _, ?_, ?_, ?_⟩
    · simpa [AddDirtyBlockIndex, World.record] using hMark
    · simpa [AddDirtyBlockIndex, World.record] using hMark
    · simpa [AddDirtyBlockIndex, World.record, markFailed, Chain.modify] using hBranch
    · simpa [AddDirtyBlockIndex, World.record, markFailed, Chain.modify] using hOrphan
    · simp [AddDirtyBlockIndex, World.record, hTrace]
  · intro err hChk hCtx
    unfold acceptChecked
    have hCtx2 : ContextualCheckBlock env
        ((w1.record (Event.CheckBlock pblock)).record
          (Event.ContextualCheckBlock (CheckBlock env pblock true true).2)).chain
        (CheckBlock env pblock true true).2
        (bIndex.Prev.bind (FindBlockIndex
          ((w1.record (Event.CheckBlock pblock)).record
            (Event.ContextualCheckBlock (CheckBlock env pblock true true).2)).chain.indexMap))
        = some err := hCtx
    simp only [hChk, hCtx2]
    refine ⟨trivial, trivial, trivial, ?_, ?_, rfl, hNoData, mem_AddDirtyBlockIndex _ _, ?_, ?_, ?_⟩
    · simpa [AddDirtyBlockIndex, World.record] using hMark
    · simpa [AddDirtyBlockIndex, World.record] using hMark
    · simpa [AddDirtyBlockIndex, World.record, markFailed, Chain.modify] using hBranch
    · simpa [AddDirtyBlockIndex, World.record, markFailed, Chain.modify] using hOrphan
    · simp [AddDirtyBlockIndex, World.record, hTrace]

/-- C14 at a block whose transactions the structural check rejects: the error
of the check is returned and the node is marked failed. -/
theorem AcceptBlock_check_failure_sample :
    (AcceptBlock rejectingEnv sampleBlock true none (sampleWorld 11 100)).1.err
      = some (Err.NewError RejectCode.RejectInvalid "bad-txns-vin-empty") :=
  ((AcceptBlock_check_failure rejectingEnv sampleBlock true none (sampleWorld 11 100)
      (sampleWorld 11 100) (sampleHeaderNode 11 100) (by decide) (by decide)
      (Or.inl rfl)).1 _ (by decide)).1

/-! ## Parent failures of the header validator -/

/-- C15: an invalid parent and a checkpoint violation are reported with the same
error. For a header without node, that passes the header check and is not the
genesis header, `AcceptBlockHeader` answers `ProjectError 3100` both when the
parent carries the failed mark and when the parent violates a checkpoint; at
the sample worlds the two calls return equal errors, while a missing parent
is reported as `ErrorBlockHeaderNoParent`. -/
theorem AcceptBlockHeader_parent_errors_collide :
    AcceptBlockHeader sampleEnv emptyBlock.Header failedParentWorld
        = ((none, some (Err.ProjectError 3100)), failedParentWorld)
    ∧ AcceptBlockHeader checkpointEnv emptyBlock.Header (sampleWorld 11 100)
        = ((none, some (Err.ProjectError 3100)), sampleWorld 11 100)
    ∧ sampleTipNode.IsInvalid = false
    ∧ AcceptBlockHeader sampleEnv { emptyBlock.Header with HashPrevBlock := 99 }
          (sampleWorld 11 100)
        = ((none, some (Err.New ChainErrCode.ErrorBlockHeaderNoParent)), sampleWorld 11 100)
    ∧ (∀ (env : Env) (bh : BlockHeader) (w : World) (prev : BlockIndex),
        FindBlockIndex w.chain.indexMap (env.GetHash bh) = none →
        env.CheckBlockHeader bh = none →
        IsGenesis env (NewBlockIndex bh) = false →
        FindBlockIndex w.chain.indexMap bh.HashPrevBlock = some prev →
        (prev.IsInvalid = true ∨ (env.CheckIndexAgainstCheckpoint w.chain prev).isSome = true) →
        AcceptBlockHeader env bh w = ((none, some (Err.ProjectError 3100)), w)) := by
  refine ⟨by decide, by decide, by decide, by decide, ?_⟩
  intro env bh w prev hFind hChk hGen hPrev hBad
  have hLink : linkParent env bh w = Sum.inr (Err.ProjectError 3100) := by
    unfold linkParent
    rcases hBad with hInv | hCp
    · simp [hGen, hPrev, hInv]
    · cases hInv : prev.IsInvalid <;> simp [hGen, hPrev, hInv, hCp]
  unfold AcceptBlockHeader
  simp [hFind, hChk, hLink]

/-! ## The undo engine: missing coins and the coinbase -/

theorem txLoop_ignores_first (env : UndoEnv) (cb other : Tx) (rest : List Tx)
    (txUndos : List TxUndo) (i : Nat) (cm : CoinsMap) (clean : Bool) :
    txLoop env (cb :: rest) txUndos i cm clean = txLoop env (other :: rest) txUndos i cm clean := by
  induction i generalizing cm clean with
  | zero => rfl
  | succ i ih =>
    unfold txLoop
    simp only [List.getElem?_cons_succ]
    cases rest[i]? with
    | none => rfl
    | some tx =>
      simp only []
      cases outputLoop env tx (i + 1) txUndos tx.Outs 0 cm clean with
      | next cm1 clean1 => exact ih cm1 clean1
      | ret r cm1 => rfl
      | abort cm1 => rfl

/-- C17: a missing coin aborts the call. `dataPayment` has an unspendable output
whose coin is not in the set; `coin.GetTxOut()` is called on the nil coin
before the nil test, and with a `GetTxOut` that reads through its receiver the
call is aborted instead of returning `DisconnectUnclean`. With a `GetTxOut` that
tolerates nil the same call returns `DisconnectUnclean`, as does a coin that is
present with another output. -/
theorem ApplyBlockUndo_missing_coin_aborts :
    sampleUndoEnv.IsSpendable { Value := 0, Script := [106, 5] } = false
    ∧ CoinsMap.FetchCoin dataBlockCoins { Hash := 9, Index := 0 } = none
    ∧ (ApplyBlockUndo sampleUndoEnv dataBlockUndo dataBlock dataBlockCoins).1 = Outcome.aborted
    ∧ (ApplyBlockUndo tolerantUndoEnv dataBlockUndo dataBlock dataBlockCoins).1
        = Outcome.returned DisconnectResult.DisconnectUnclean
    ∧ (ApplyBlockUndo sampleUndoEnv dataBlockUndo dataBlock mismatchCoins).1
        = Outcome.returned DisconnectResult.DisconnectUnclean := by
  decide

/-- C18: the coinbase is never visited. On `sampleBlock` the call returns
`DisconnectOk` and the coin of the coinbase output is still in the set; with
that coin missing from the set the call still returns `DisconnectOk`; and for
every block the outcome does not depend on its first transaction. -/
theorem ApplyBlockUndo_skips_coinbase :
    (ApplyBlockUndo sampleUndoEnv sampleBlockUndo sampleBlock sampleCoins).1
        = Outcome.returned DisconnectResult.DisconnectOk
    ∧ CoinsMap.FetchCoin
        (ApplyBlockUndo sampleUndoEnv sampleBlockUndo sampleBlock sampleCoins).2
        { Hash := 1, Index := 0 }
        = some { TxOut := { Value := 50, Script := [1] }, Height := 11, IsCoinBase := true }
    ∧ CoinsMap.FetchCoin paymentOnlyCoins { Hash := 1, Index := 0 } = none
    ∧ (ApplyBlockUndo sampleUndoEnv sampleBlockUndo sampleBlock paymentOnlyCoins).1
        = Outcome.returned DisconnectResult.DisconnectOk
    ∧ (∀ (env : UndoEnv) (blockUndo : BlockUndo) (header : BlockHeader) (checked : Bool)
        (cb other : Tx) (rest : List Tx) (cm : CoinsMap),
        ApplyBlockUndo env blockUndo { Header := header, Txs := cb :: rest, Checked := checked } cm
          = ApplyBlockUndo env blockUndo
              { Header := header, Txs := other :: rest, Checked := checked } cm) := by
  refine ⟨by decide, by decide, by decide, by decide, ?_⟩
  intro env blockUndo header checked cb other rest cm
  unfold ApplyBlockUndo
  simp only [List.length_cons, txLoop_ignores_first env cb other rest]

/-! ## The contextual check -/

/-- C19: with no previous node, or with a previous node at whose median time past
the monolith upgrade is not active, `ContextualCheckBlock` rejects a block
whose encoded size exceeds 8 times `OneMegaByte` with "bad-blk-length",
whatever the configured maximum block size and whatever the transaction
validator would answer. In every other case it returns the answer of the
transaction validator for the transactions of the block, the height 0 (no
previous node) or the height of the previous node plus one in 32-bit
arithmetic, and the lock-time cutoff of `getLockTime`. That cutoff is, when
the CSV deployment is active at the previous node (and the median-time-past
flag is a non-zero bit mask), the median time past of the previous node, 0
when there is no previous node; and in every other case the time of the header
of the block. -/
theorem ContextualCheckBlock_spec (env : Env) (c : Chain) (b : Block) :
    (env.EncodeSize b > 8 * env.OneMegaByte →
      ∀ (maxSize : Nat) (validator : List Tx → Int → Int → Option Err),
        ContextualCheckBlock
            { env with Excessiveblocksize := maxSize,
                       ContextureCheckBlockTransactions := validator } c b none
          = some (Err.NewError RejectCode.RejectInvalid "bad-blk-length"))
    ∧ (∀ p : BlockIndex, env.IsMonolithEnabled (env.GetMedianTimePast c p) = false →
        env.EncodeSize b > 8 * env.OneMegaByte →
        ∀ (maxSize : Nat) (validator : List Tx → Int → Int → Option Err),
          ContextualCheckBlock
              { env with Excessiveblocksize := maxSize,
                         ContextureCheckBlockTransactions := validator } c b (some p)
            = some (Err.NewError RejectCode.RejectInvalid "bad-blk-length"))
    ∧ (env.EncodeSize b ≤ 8 * env.OneMegaByte →
        ContextualCheckBlock env c b none
          = env.ContextureCheckBlockTransactions b.Txs 0 (getLockTime env c b none))
    ∧ (∀ p : BlockIndex,
        (env.IsMonolithEnabled (env.GetMedianTimePast c p) = true
          ∨ env.EncodeSize b ≤ 8 * env.OneMegaByte) →
        ContextualCheckBlock env c b (some p)
            = env.ContextureCheckBlockTransactions b.Txs (wrapInt 32 (p.Height + 1))
                (getLockTime env c b (some p))
        ∧ (-2 ^ 31 ≤ p.Height → p.Height < 2 ^ 31 - 1 →
            ContextualCheckBlock env c b (some p)
              = env.ContextureCheckBlockTransactions b.Txs (p.Height + 1)
                  (getLockTime env c b (some p))))
    ∧ (∀ p : BlockIndex,
        env.VersionBitsState c (some p) = ThresholdState.ThresholdActive →
        env.LocktimeMedianTimePast ≠ 0 →
        getLockTime env c b (some p) = env.GetMedianTimePast c p)
    ∧ (env.VersionBitsState c none = ThresholdState.ThresholdActive →
        env.LocktimeMedianTimePast ≠ 0 →
        getLockTime env c b none = 0)
    ∧ (∀ prev : Option BlockIndex,
        (env.VersionBitsState c prev ≠ ThresholdState.ThresholdActive
          ∨ env.LocktimeMedianTimePast = 0) →
        getLockTime env c b prev = (b.Header.Time : Int)) := by
  refine ⟨?_, ?_, ?_, ?_, ?_, ?_, ?_⟩
  · intro hBig maxSize validator
    simp [ContextualCheckBlock, hBig]
  · intro p hOff hBig maxSize validator
    simp [ContextualCheckBlock, hOff, hBig]
  · intro hSmall
    have hNot : ¬ env.EncodeSize b > 8 * env.OneMegaByte := Nat.not_lt.mpr hSmall
    simp [ContextualCheckBlock, hNot]
  · intro p hCase
    have hMain : ContextualCheckBlock env c b (some p)
        = env.ContextureCheckBlockTransactions b.Txs (wrapInt 32 (p.Height + 1))
            (getLockTime env c b (some p)) := by
      rcases hCase with hOn | hSmall
      · simp [ContextualCheckBlock, hOn]
      · have hNot : ¬ env.EncodeSize b > 8 * env.OneMegaByte := Nat.not_lt.mpr hSmall
        simp [ContextualCheckBlock, hNot]
    refine ⟨hMain, ?_⟩
    intro hLo hHi
    rw [hMain, wrapInt_32_id (p.Height + 1) (by omega) (by omega)]
  · intro p hActive hFlag
    simp [getLockTime, hActive, hFlag]
  · intro hActive hFlag
    simp [getLockTime, hActive, hFlag]
  · intro prev hOff
    rcases hOff with hState | hZero
    · simp [getLockTime, hState]
    · simp [getLockTime, hZero]

/-- C19 at `sampleBlock` under a legacy cap of 80 bytes, after the tip node whose
median time past lies before the monolith activation. -/
theorem ContextualCheckBlock_spec_sample :
    ContextualCheckBlock smallCapEnv (sampleWorld 11 100).chain sampleBlock (some sampleTipNode)
      = some (Err.NewError RejectCode.RejectInvalid "bad-blk-length") :=
  (ContextualCheckBlock_spec smallCapEnv (sampleWorld 11 100).chain sampleBlock).2.1
    sampleTipNode (by decide) (by decide) smallCapEnv.Excessiveblocksize
    smallCapEnv.ContextureCheckBlockTransactions

/-! ## Status promotion and attachment -/

/-- `ReceivedBlockTransactions` on a node of the index, written with `promote`. -/
theorem ReceivedBlockTransactions_unfold (env : Env) (pblock : Block) (key : UtilHash)
    (pos : DiskBlockPos) (w : World) (n : BlockIndex)
    (hNode : FindBlockIndex w.chain.indexMap key = some n) :
    ReceivedBlockTransactions env pblock key pos w
      = if IsGenesis env n || ParentInBranch w.chain n then
          (Outcome.returned (),
            { promotedWorld pblock key pos w with
              chain := AddToBranch (promotedWorld pblock key pos w).chain key })
        else
          match (match n.Prev.bind
                    (FindBlockIndex (promotedWorld pblock key pos w).chain.indexMap) with
                 | some prev => some (prev.IsValid BlockValidTree)
                 | none => env.nilIndexIsValid) with
          | none => (Outcome.aborted, promotedWorld pblock key pos w)
          | some true =>
            (Outcome.returned (),
              { promotedWorld pblock key pos w with
                chain := AddToOrphan (promotedWorld pblock key pos w).chain key })
          | some false => (Outcome.returned (), promotedWorld pblock key pos w) := by
  unfold ReceivedBlockTransactions
  simp only [hNode, AddDirtyBlockIndex, Chain.modify, FindBlockIndex_modifyIndex_self,
    Option.map_some', promotedWorld]
  rfl

theorem mem_AddToBranch (c : Chain) (h : UtilHash) :
    h ∈ (AddToBranch c h).branch ∧ h ∉ (AddToBranch c h).orphan := by
  unfold AddToBranch
  refine ⟨?_, ?_⟩
  · by_cases hm : h ∈ c.branch <;> simp [hm]
  · simp

theorem mem_AddToOrphan (c : Chain) (h : UtilHash) :
    h ∈ (AddToOrphan c h).orphan ∧ h ∉ (AddToOrphan c h).branch := by
  unfold AddToOrphan
  refine ⟨?_, ?_⟩
  · by_cases hm : h ∈ c.orphan <;> simp [hm]
  · simp

theorem FindBlockIndex_modifyIndex_isSome (f : BlockIndex → BlockIndex)
    (m : List (UtilHash × BlockIndex)) (k h : UtilHash) :
    (FindBlockIndex (modifyIndex f m k) h).isSome = (FindBlockIndex m h).isSome := by
  by_cases hk : h = k
  · subst hk
    rw [FindBlockIndex_modifyIndex_self]
    cases FindBlockIndex m h <;> rfl
  · rw [FindBlockIndex_modifyIndex_other f m k h hk]

/-- C16, as stated, fails: the call does not return normally in every case. On a
node that is not the genesis node and has no parent link, the test
`pindexNew.Prev.IsValid(...)` goes through the nil link and the call is aborted. -/
theorem ReceivedBlockTransactions_parentless_aborts :
    FindBlockIndex parentlessWorld.chain.indexMap 21
        = some { sampleHeaderNode 11 100 with Prev := none }
    ∧ IsGenesis sampleEnv { sampleHeaderNode 11 100 with Prev := none } = false
    ∧ (ReceivedBlockTransactions sampleEnv sampleBlock 21 { File := 0, Pos := 300 }
        parentlessWorld).1 = Outcome.aborted := by
  decide

/-- C16, amended: for a node of the index that is the genesis node or whose parent link
points at a node of the index, `ReceivedBlockTransactions` returns normally;
the node is then stored promoted (transaction count from the block, chain
transaction count 0, file id and offset from the position, body data recorded,
validity at least `Transactions`) and registered as dirty, and it is attached
by the three-way rule: genesis or parent in a branch, into the branch set and
out of the orphan set; otherwise, parent at least `Tree`-valid, into the orphan
set and out of the branch set; otherwise both sets stay as they were. -/
theorem ReceivedBlockTransactions_attach (env : Env) (pblock : Block) (key : UtilHash)
    (pos : DiskBlockPos) (w : World) (n : BlockIndex)
    (hNode : FindBlockIndex w.chain.indexMap key = some n)
    (hParent : IsGenesis env n = true
      ∨ (n.Prev.bind (FindBlockIndex w.chain.indexMap)).isSome = true) :
    (ReceivedBlockTransactions env pblock key pos w).1 = Outcome.returned ()
    ∧ FindBlockIndex (ReceivedBlockTransactions env pblock key pos w).2.chain.indexMap key
        = some (promote pblock pos n)
    ∧ (promote pblock pos n).TxCount = wrapInt 32 (pblock.Txs.length : Int)
    ∧ ((pblock.Txs.length : Int) < 2 ^ 31 →
        (promote pblock pos n).TxCount = (pblock.Txs.length : Int))
    ∧ (promote pblock pos n).ChainTxCount = 0
    ∧ (promote pblock pos n).File = pos.File
    ∧ (promote pblock pos n).DataPos = pos.Pos
    ∧ (promote pblock pos n).Status.HaveData = true
    ∧ BlockValidTransactions ≤ (promote pblock pos n).Status.Validity
    ∧ key ∈ (ReceivedBlockTransactions env pblock key pos w).2.dirty
    ∧ ((IsGenesis env n = true ∨ ParentInBranch w.chain n = true) →
        key ∈ (ReceivedBlockTransactions env pblock key pos w).2.chain.branch
        ∧ key ∉ (ReceivedBlockTransactions env pblock key pos w).2.chain.orphan)
    ∧ (IsGenesis env n = false → ParentInBranch w.chain n = false →
        ∀ p, n.Prev.bind
              (FindBlockIndex (ReceivedBlockTransactions env pblock key pos w).2.chain.indexMap)
            = some p →
          (p.IsValid BlockValidTree = true →
            key ∈ (ReceivedBlockTransactions env pblock key pos w).2.chain.orphan
            ∧ key ∉ (ReceivedBlockTransactions env pblock key pos w).2.chain.branch)
          ∧ (p.IsValid BlockValidTree = false →
            (ReceivedBlockTransactions env pblock key pos w).2.chain.branch = w.chain.branch
            ∧ (ReceivedBlockTransactions env pblock key pos w).2.chain.orphan
                = w.chain.orphan)) := by
  have hStored : FindBlockIndex (promotedWorld pblock key pos w).chain.indexMap key
      = some (promote pblock pos n) := by
    simp [promotedWorld, AddDirtyBlockIndex, Chain.modify, FindBlockIndex_modifyIndex_self, hNode]
  have hDirty : key ∈ (promotedWorld pblock key pos w).dirty := mem_AddDirtyBlockIndex _ _
  have hCount : (promote pblock pos n).TxCount = wrapInt 32 (pblock.Txs.length : Int) := rfl
  have hFields : ((pblock.Txs.length : Int) < 2 ^ 31 →
        (promote pblock pos n).TxCount = (pblock.Txs.length : Int))
      ∧ (promote pblock pos n).ChainTxCount = 0
      ∧ (promote pblock pos n).File = pos.File
      ∧ (promote pblock pos n).DataPos = pos.Pos
      ∧ (promote pblock pos n).Status.HaveData = true
      ∧ BlockValidTransactions ≤ (promote pblock pos n).Status.Validity := by
    refine ⟨?_, rfl, rfl, rfl, rfl, ?_⟩
    · intro hLen
      rw [hCount]
      exact wrapInt_32_id _ (by have := Int.natCast_nonneg pblock.Txs.length; omega) hLen
    · simp [promote, BlockIndex.RaiseValidity, BlockIndex.AddStatus]
  rw [ReceivedBlockTransactions_unfold env pblock key pos w n hNode]
  by_cases hAttach : (IsGenesis env n || ParentInBranch w.chain n) = true
  · simp only [hAttach, if_true]
    refine ⟨trivial, hStored, hCount, hFields.1, hFields.2.1, hFields.2.2.1, hFields.2.2.2.1,
      hFields.2.2.2.2.1, hFields.2.2.2.2.2, hDirty, ?_, ?_⟩
    · intro _
      exact mem_AddToBranch _ _
    · intro hG hB
      simp [hG, hB] at hAttach
  · have hG : IsGenesis env n = false := by
      cases h : IsGenesis env n
      · rfl
      · simp [h] at hAttach
    have hB : ParentInBranch w.chain n = false := by
      cases h : ParentInBranch w.chain n
      · rfl
      · simp [h] at hAttach
    have hSome : (n.Prev.bind (FindBlockIndex w.chain.indexMap)).isSome = true := by
      rcases hParent with hGen | hP
      · rw [hG] at hGen
        cases hGen
      · exact hP
    have hSome2 : (n.Prev.bind
        (FindBlockIndex (promotedWorld pblock key pos w).chain.indexMap)).isSome = true := by
      cases hPrev : n.Prev with
      | none => simp [hPrev] at hSome
      | some ph =>
        simp only [hPrev, Option.some_bind] at hSome ⊢
        simpa [promotedWorld, AddDirtyBlockIndex, Chain.modify,
          FindBlockIndex_modifyIndex_isSome] using hSome
    simp only [hAttach, Bool.false_eq_true, if_false]
    cases hPar : n.Prev.bind
        (FindBlockIndex (promotedWorld pblock key pos w).chain.indexMap) with
    | none => simp [hPar] at hSome2
    | some p =>
      cases hValid : p.IsValid BlockValidTree with
      | true =>
        simp only [hValid]
        refine ⟨trivial, hStored, hCount, hFields.1, hFields.2.1, hFields.2.2.1, hFields.2.2.2.1,
          hFields.2.2.2.2.1, hFields.2.2.2.2.2, hDirty, ?_, ?_⟩
        · intro hOr
          rcases hOr with h | h
          · rw [hG] at h
            cases h
          · rw [hB] at h
            cases h
        · intro _ _ q hq
          have hqp : q = p := by
            have : some q = some p := by
              rw [← hq]
              exact hPar
            exact Option.some.inj this
          subst hqp
          refine ⟨fun _ => mem_AddToOrphan _ _, ?_⟩
          intro hNot
          rw [hValid] at hNot
          cases hNot
      | false =>
        simp only [hValid]
        refine ⟨trivial, hStored, hCount, hFields.1, hFields.2.1, hFields.2.2.1, hFields.2.2.2.1,
          hFields.2.2.2.2.1, hFields.2.2.2.2.2, hDirty, ?_, ?_⟩
        · intro hOr
          rcases hOr with h | h
          · rw [hG] at h
            cases h
          · rw [hB] at h
            cases h
        · intro _ _ q hq
          have hqp : q = p := by
            have : some q = some p := by
              rw [← hq]
              exact hPar
            exact Option.some.inj this
          subst hqp
          refine ⟨?_, fun _ => ⟨rfl, rfl⟩⟩
          intro hYes
          rw [hValid] at hYes
          cases hYes

/-- C16 at the header-only node of `sampleBlock`, whose parent (hash 20) is in a
branch: the node joins the branch set and stays out of the orphan set. -/
theorem ReceivedBlockTransactions_attach_sample :
    21 ∈ (ReceivedBlockTransactions sampleEnv sampleBlock 21 { File := 0, Pos := 300 }
        (sampleWorld 11 100)).2.chain.branch
    ∧ 21 ∉ (ReceivedBlockTransactions sampleEnv sampleBlock 21 { File := 0, Pos := 300 }
        (sampleWorld 11 100)).2.chain.orphan := by
  obtain ⟨-, -, -, -, -, -, -, -, -, -, hBranch, -⟩ :=
    ReceivedBlockTransactions_attach sampleEnv sampleBlock 21 { File := 0, Pos := 300 }
      (sampleWorld 11 100) (sampleHeaderNode 11 100) (by decide) (Or.inr (by decide))
  exact hBranch (Or.inr (by decide))

/-! ## Disk failures -/

/-- `WriteBlockToDisk` touches neither the chain nor the dirty registry, and hands
back no position together with an error. -/
theorem WriteBlockToDisk_frame (env : Env) (bi : BlockIndex) (bl : Block)
    (inDbp : Option DiskBlockPos) (w : World) :
    (WriteBlockToDisk env bi bl inDbp w).2.chain = w.chain
    ∧ (WriteBlockToDisk env bi bl inDbp w).2.dirty = w.dirty
    ∧ (∀ err, (WriteBlockToDisk env bi bl inDbp w).1.2 = some err →
        (WriteBlockToDisk env bi bl inDbp w).1.1 = none) := by
  unfold WriteBlockToDisk
  simp only []
  split
  · exact ⟨rfl, rfl, fun _ _ => rfl⟩
  · split
    · split
      · exact ⟨rfl, rfl, fun _ _ => rfl⟩
      · refine ⟨rfl, rfl, ?_⟩
        intro err h
        cases h
    · refine ⟨rfl, rfl, ?_⟩
      intro err h
      cases h

/-- C20: when the header is accepted, the node has no body data, the gates for
unsolicited blocks are passed and both checks pass, an error of
`WriteBlockToDisk` is returned as it is, with no position: the node comes back
and stays stored unfailed and without body data, with its fields as they were,
and the chain (index, branch and orphan sets) and the dirty registry are as
the header validator left them. The error is `ProjectError 2000` when
`FindBlockPos` answers false, and `ProjectError 2001` when no position was
supplied and the write fails. When a position is supplied and `FindBlockPos`
accepts it, the position handed back is the supplied one as `FindBlockPos` left
it, and the only disk call recorded is that `FindBlockPos`. -/
theorem AcceptBlock_disk_failure (env : Env) (pblock : Block) (fRequested : Bool)
    (inDbp : Option DiskBlockPos) (w w1 : World) (bIndex : BlockIndex)
    (hHdr : AcceptBlockHeader env pblock.Header w = ((some bIndex, none), w1))
    (hData : bIndex.HasData = false)
    (hGate : fRequested = true
      ∨ ((w1.chain.Tip = none ∨ ∃ tip, w1.chain.Tip = some tip ∧ tip.ChainWork < bIndex.ChainWork)
          ∧ ¬ bIndex.Height > wrapInt 32 (w1.chain.Height + env.MinBlocksToKeep)))
    (hChk : (CheckBlock env pblock true true).1 = none)
    (hCtx : ContextualCheckBlock env w1.chain (CheckBlock env pblock true true).2
      (bIndex.Prev.bind (FindBlockIndex w1.chain.indexMap)) = none) :
    (∀ err,
        (WriteBlockToDisk env bIndex (CheckBlock env pblock true true).2 inDbp
          ((w1.record (Event.CheckBlock pblock)).record
            (Event.ContextualCheckBlock (CheckBlock env pblock true true).2))).1.2 = some err →
        (AcceptBlock env pblock fRequested inDbp w).1.err = some err
        ∧ (AcceptBlock env pblock fRequested inDbp w).1.outDbp = none
        ∧ (AcceptBlock env pblock fRequested inDbp w).1.aborted = false
        ∧ (AcceptBlock env pblock fRequested inDbp w).1.bIndex = some bIndex
        ∧ FindBlockIndex (AcceptBlock env pblock fRequested inDbp w).2.chain.indexMap
            (env.GetHash pblock.Header) = some bIndex
        ∧ bIndex.Status.Failed = false
        ∧ bIndex.Status.HaveData = false
        ∧ (AcceptBlock env pblock fRequested inDbp w).2.chain = w1.chain
        ∧ (AcceptBlock env pblock fRequested inDbp w).2.chain.branch = w.chain.branch
        ∧ (AcceptBlock env pblock fRequested inDbp w).2.chain.orphan = w.chain.orphan
        ∧ (AcceptBlock env pblock fRequested inDbp w).2.dirty = w.dirty)
    ∧ ((env.FindBlockPos
          (w.trace ++ [Event.CheckBlock pblock,
            Event.ContextualCheckBlock (CheckBlock env pblock true true).2])
          (match inDbp with
           | none => NewDiskBlockPos 0 0
           | some p => p)
          ((env.SerializeSize (CheckBlock env pblock true true).2 % 2 ^ 32 + 4) % 2 ^ 32)
          bIndex.Height ((CheckBlock env pblock true true).2.Header.Time % 2 ^ 64)
          inDbp.isSome).1 = false →
        (AcceptBlock env pblock fRequested inDbp w).1.err = some (Err.ProjectError 2000))
    ∧ (inDbp = none →
        (env.FindBlockPos
          (w.trace ++ [Event.CheckBlock pblock,
            Event.ContextualCheckBlock (CheckBlock env pblock true true).2])
          (NewDiskBlockPos 0 0)
          ((env.SerializeSize (CheckBlock env pblock true true).2 % 2 ^ 32 + 4) % 2 ^ 32)
          bIndex.Height ((CheckBlock env pblock true true).2.Header.Time % 2 ^ 64)
          false).1 = true →
        env.WriteBlockToDisk
          (w.trace ++ [Event.CheckBlock pblock,
            Event.ContextualCheckBlock (CheckBlock env pblock true true).2,
            Event.FindBlockPos (NewDiskBlockPos 0 0)
              ((env.SerializeSize (CheckBlock env pblock true true).2 % 2 ^ 32 + 4) % 2 ^ 32)
              bIndex.Height ((CheckBlock env pblock true true).2.Header.Time % 2 ^ 64) false])
          (CheckBlock env pblock true true).2
          (env.FindBlockPos
            (w.trace ++ [Event.CheckBlock pblock,
              Event.ContextualCheckBlock (CheckBlock env pblock true true).2])
            (NewDiskBlockPos 0 0)
            ((env.SerializeSize (CheckBlock env pblock true true).2 % 2 ^ 32 + 4) % 2 ^ 32)
            bIndex.Height ((CheckBlock env pblock true true).2.Header.Time % 2 ^ 64)
            false).2 = false →
        (AcceptBlock env pblock fRequested inDbp w).1.err = some (Err.ProjectError 2001))
    ∧ (∀ p, inDbp = some p →
        (env.FindBlockPos
          (w.trace ++ [Event.CheckBlock pblock,
            Event.ContextualCheckBlock (CheckBlock env pblock true true).2])
          p ((env.SerializeSize (CheckBlock env pblock true true).2 % 2 ^ 32 + 4) % 2 ^ 32)
          bIndex.Height ((CheckBlock env pblock true true).2.Header.Time % 2 ^ 64)
          true).1 = true →
        (AcceptBlock env pblock fRequested inDbp w).1.err = none
        ∧ (AcceptBlock env pblock fRequested inDbp w).1.outDbp
            = some (env.FindBlockPos
                (w.trace ++ [Event.CheckBlock pblock,
                  Event.ContextualCheckBlock (CheckBlock env pblock true true).2])
                p ((env.SerializeSize (CheckBlock env pblock true true).2 % 2 ^ 32 + 4) % 2 ^ 32)
                bIndex.Height ((CheckBlock env pblock true true).2.Header.Time % 2 ^ 64)
                true).2
        ∧ (AcceptBlock env pblock fRequested inDbp w).2.trace
            = w.trace ++ [Event.CheckBlock pblock,
                Event.ContextualCheckBlock (CheckBlock env pblock true true).2,
                Event.FindBlockPos p
                  ((env.SerializeSize (CheckBlock env pblock true true).2 % 2 ^ 32 + 4) % 2 ^ 32)
                  bIndex.Height ((CheckBlock env pblock true true).2.Header.Time % 2 ^ 64)
                  true]) := by
  obtain ⟨hOk, hFind, hTrace, hDirty⟩ :=
    AcceptBlockHeader_accepted env pblock.Header w w1 bIndex hHdr
  have hFrame := AcceptBlockHeader_frame env pblock.Header w
  rw [hHdr] at hFrame
  obtain ⟨_, _, hBranch, hOrphan, _, _, _⟩ := hFrame
  simp only at hBranch hOrphan
  have hNoData : bIndex.Status.HaveData = false := hData
  have hCtx2 : ContextualCheckBlock env
      ((w1.record (Event.CheckBlock pblock)).record
        (Event.ContextualCheckBlock (CheckBlock env pblock true true).2)).chain
      (CheckBlock env pblock true true).2
      (bIndex.Prev.bind (FindBlockIndex
        ((w1.record (Event.CheckBlock pblock)).record
          (Event.ContextualCheckBlock (CheckBlock env pblock true true).2)).chain.indexMap))
      = none := hCtx
  have hW3 : ((w1.record (Event.CheckBlock pblock)).record
      (Event.ContextualCheckBlock (CheckBlock env pblock true true).2)).trace
      = w.trace ++ [Event.CheckBlock pblock,
          Event.ContextualCheckBlock (CheckBlock env pblock true true).2] := by
    simp [World.record, hTrace]
  rw [AcceptBlock_past_gates env pblock fRequested inDbp w w1 bIndex hHdr hData hGate]
  refine ⟨?_, ?_, ?_, ?_⟩
  · intro err hErr
    obtain ⟨hChain, hDirtyW, hNoPos⟩ := WriteBlockToDisk_frame env bIndex
      (CheckBlock env pblock true true).2 inDbp
      ((w1.record (Event.CheckBlock pblock)).record
        (Event.ContextualCheckBlock (CheckBlock env pblock true true).2))
    have hPos := hNoPos err hErr
    unfold acceptChecked
    simp only [hChk, hCtx2, hErr]
    refine ⟨trivial, hPos, trivial, trivial, ?_, hOk, hNoData, ?_, ?_, ?_, ?_⟩
    · rw [hChain]
      exact hFind
    · rw [hChain]
      rfl
    · rw [hChain]
      exact hBranch
    · rw [hChain]
      exact hOrphan
    · rw [hDirtyW]
      exact hDirty
  · intro hFull
    unfold acceptChecked
    simp only [hChk, hCtx2]
    have hWr : (WriteBlockToDisk env bIndex (CheckBlock env pblock true true).2 inDbp
        ((w1.record (Event.CheckBlock pblock)).record
          (Event.ContextualCheckBlock (CheckBlock env pblock true true).2))).1
        = (none, some (Err.ProjectError 2000)) := by
      unfold WriteBlockToDisk
      simp only [hW3, hFull, Bool.not_false, if_true]
    simp only [hWr]
  · intro hNone hFound hWrite
    subst hNone
    unfold acceptChecked
    simp only [hChk, hCtx2]
    have hW4 : ∀ e : Event,
        (((w1.record (Event.CheckBlock pblock)).record
          (Event.ContextualCheckBlock (CheckBlock env pblock true true).2)).record e).trace
        = w.trace ++ [Event.CheckBlock pblock,
            Event.ContextualCheckBlock (CheckBlock env pblock true true).2, e] := by
      intro e
      simp [World.record, hTrace]
    have hWr : (WriteBlockToDisk env bIndex (CheckBlock env pblock true true).2 none
        ((w1.record (Event.CheckBlock pblock)).record
          (Event.ContextualCheckBlock (CheckBlock env pblock true true).2))).1
        = (none, some (Err.ProjectError 2001)) := by
      unfold WriteBlockToDisk
      simp only [hW3, hW4, Option.isSome_none, Option.isNone_none, hFound, hWrite,
        Bool.not_true, Bool.not_false, Bool.false_eq_true, if_false, if_true]
    simp only [hWr]
  · intro p hSome hFound
    subst hSome
    unfold acceptChecked
    simp only [hChk, hCtx2]
    have hWr : WriteBlockToDisk env bIndex (CheckBlock env pblock true true).2 (some p)
        ((w1.record (Event.CheckBlock pblock)).record
          (Event.ContextualCheckBlock (CheckBlock env pblock true true).2))
        = ((some (env.FindBlockPos
              (w.trace ++ [Event.CheckBlock pblock,
                Event.ContextualCheckBlock (CheckBlock env pblock true true).2])
              p ((env.SerializeSize (CheckBlock env pblock true true).2 % 2 ^ 32 + 4) % 2 ^ 32)
              bIndex.Height ((CheckBlock env pblock true true).2.Header.Time % 2 ^ 64)
              true).2, none),
            ((w1.record (Event.CheckBlock pblock)).record
              (Event.ContextualCheckBlock (CheckBlock env pblock true true).2)).record
              (Event.FindBlockPos p
                ((env.SerializeSize (CheckBlock env pblock true true).2 % 2 ^ 32 + 4) % 2 ^ 32)
                bIndex.Height ((CheckBlock env pblock true true).2.Header.Time % 2 ^ 64)
                true)) := by
      unfold WriteBlockToDisk
      simp only [hW3, Option.isSome_some, Option.isNone_some, hFound, Bool.not_true,
        Bool.false_eq_true, if_false]
    simp only [hWr, ReceivedBlockTransactions_trace]
    refine ⟨trivial, trivial, ?_⟩
    simp [World.record, hTrace]

/-- C20 at a disk without room: the requested `sampleBlock` passes both checks
and `AcceptBlock` returns `ProjectError 2000`. -/
theorem AcceptBlock_disk_failure_sample :
    (AcceptBlock fullDiskEnv sampleBlock true none (sampleWorld 11 100)).1.err
      = some (Err.ProjectError 2000) :=
  (AcceptBlock_disk_failure fullDiskEnv sampleBlock true none (sampleWorld 11 100)
    (sampleWorld 11 100) (sampleHeaderNode 11 100) (by decide) (by decide) (Or.inl rfl)
    (by decide) (by decide)).2.1 (by decide)

end Copernicus
